import Mathlib

/-!
Shallow embedding of the dungeons-and-agents play-by-post server core:
the message channel (`server/channel.py`), the message routes
(`server/routes/messages.py`), game membership routes
(`server/routes/games.py`), admin actions (`server/admin.py`),
the moderation gate (`server/moderation.py`) and the inactivity sweeper
(`server/app.py`).

Modelling conventions:
- The SQLite store is modelled as a record `St` of four tables (lists kept
  in insertion order).  `ORDER BY created_at ASC` is modelled by a stable
  insertion sort on the `created_at` field; SQLite leaves the order of
  equal keys unspecified, the model resolves ties by insertion order.
- Timestamps (`datetime.now(timezone.utc).isoformat()`, compared as TEXT
  in SQL) are modelled as `Nat`; ISO-8601 UTC strings compare
  lexicographically exactly as the instants they denote compare.
- `uuid.uuid4()` draws and clock reads are nondeterministic in the
  source; the model takes them as explicit parameters (`freshIds`, `now`).
- JSON values (`json.loads` results) are the inductive `Jsn`; a request
  body string is a `PostContent` recording both the raw text and, when
  the text parses, the parsed value — mirroring the only two outcomes of
  `json.loads` that the route distinguishes.
- A FastAPI `HTTPException` is an `ApiErr` (status code plus detail);
  raising before any write means the store is unchanged, which the model
  expresses by returning the error without a new state.
-/

/-- JSON values as produced by `json.loads` (numbers restricted to
integers; the payloads the routes inspect use none other). -/
inductive Jsn where
  | nullv : Jsn
  | boolv (b : Bool) : Jsn
  | intv (n : Int) : Jsn
  | strv (s : String) : Jsn
  | arrv (xs : List Jsn) : Jsn
  | objv (fields : List (String × Jsn)) : Jsn
deriving Repr

/-- Python truthiness (`if not w_content`) of a JSON value. -/
def Jsn.truthy : Jsn → Bool
  | .nullv => false
  | .boolv b => b
  | .intv n => n != 0
  | .strv s => !s.isEmpty
  | .arrv xs => !xs.isEmpty
  | .objv fs => !fs.isEmpty

/-- Dictionary lookup `data["k"]` / `data.get("k")` on a parsed JSON
object.  `json.loads` deduplicates keys (last wins); the model assumes
the well-formed case of distinct keys and takes the first match. -/
def Jsn.lookup : List (String × Jsn) → String → Option Jsn
  | [], _ => none
  | (k, v) :: rest, key => if k == key then some v else Jsn.lookup rest key

mutual

/-- Python `repr` of a parsed JSON value (used by `str()` on non-string
values: lists and dicts print with single-quoted strings). -/
def Jsn.pyRepr : Jsn → String
  | .nullv => "None"
  | .boolv true => "True"
  | .boolv false => "False"
  | .intv n => toString n
  | .strv s => "\x27" ++ s ++ "\x27"
  | .arrv xs => "[" ++ String.intercalate ", " (Jsn.pyReprList xs) ++ "]"
  | .objv fs => "\x7b" ++ String.intercalate ", " (Jsn.pyReprFields fs) ++ "\x7d"

def Jsn.pyReprList : List Jsn → List String
  | [] => []
  | x :: xs => Jsn.pyRepr x :: Jsn.pyReprList xs

def Jsn.pyReprFields : List (String × Jsn) → List String
  | [] => []
  | (k, v) :: fs => ("\x27" ++ k ++ "\x27: " ++ Jsn.pyRepr v) :: Jsn.pyReprFields fs

end

/-- Python `str()` applied to a parsed JSON value
(`narration = str(data["narration"])`). -/
def Jsn.pyStr : Jsn → String
  | .strv s => s
  | j => j.pyRepr

/-- The strings kept of a JSON array (whisper `"to"` lists; in the
modelled domain these are arrays of strings). -/
def Jsn.strList : Jsn → List String
  | .arrv xs => xs.filterMap fun j => match j with | .strv s => some s | _ => none
  | _ => []

/-- A request `content` string together with its `json.loads` outcome:
`text s` is a string `s` that fails to parse, `json raw j` is a string
`raw` that parses to the value `j`. -/
inductive PostContent where
  | text (s : String) : PostContent
  | json (raw : String) (j : Jsn) : PostContent
deriving Repr

/-- The literal string the caller submitted (what is moderated and, absent
extraction, stored). -/
def PostContent.asString : PostContent → String
  | .text s => s
  | .json raw _ => raw

/-- Rows of the `agents` table. -/
structure Agent where
  id : String
  name : String
deriving Repr, DecidableEq

/-- The `config` JSON column of a game (`GameConfig` pydantic model);
only the fields the modelled operations read. -/
structure GameConfig where
  maxPlayers : Nat
  allowMidSessionJoin : Bool
  pollIntervalSeconds : Nat
deriving Repr, DecidableEq

/-- Rows of the `games` table (fields the modelled operations read). -/
structure Game where
  id : String
  dmId : String
  status : String
  config : GameConfig
  createdAt : Nat
deriving Repr, DecidableEq

/-- Rows of the `players` table: the per-(game, agent) membership. -/
structure Player where
  gameId : String
  agentId : String
  characterName : Option String
  role : String
  status : String
  sessionToken : String
deriving Repr, DecidableEq

/-- Rows of the `messages` table.  `agent_name` is not stored but joined
from `agents` at read time, as in the SQL. -/
structure Message where
  id : String
  gameId : String
  agentId : Option String
  type : String
  content : String
  imageUrl : Option String
  toAgents : Option (List String)
  metadata : Option (List (String × Jsn))
  createdAt : Nat
deriving Repr

/-- The relational store: the four tables, each in insertion order. -/
structure St where
  agents : List Agent
  games : List Game
  players : List Player
  messages : List Message
deriving Repr

/-- A FastAPI `HTTPException`: status code and detail string. -/
structure ApiErr where
  status : Nat
  detail : String
deriving Repr, DecidableEq

/-! ## Moderation gate (`server/moderation.py`) -/

/-- The moderation configuration installed by `configure_moderation`:
the enabled flag and the compiled word list. -/
structure ModCfg where
  enabled : Bool
  words : List String
deriving Repr, DecidableEq

/-- ASCII lowercasing of one character (the words, hostnames and message
types the source lowercases or compares case-insensitively are ASCII). -/
def lowerChar (c : Char) : Char :=
  if c.isUpper then Char.ofNat (c.toNat + 32) else c

/-- ASCII uppercasing of one character. -/
def upperChar (c : Char) : Char :=
  if c.isLower then Char.ofNat (c.toNat - 32) else c

/-- ASCII `str.lower()`. -/
def strLower (s : String) : String := String.mk (s.toList.map lowerChar)

/-- ASCII `str.upper()`. -/
def strUpper (s : String) : String := String.mk (s.toList.map upperChar)

/-- Split of a character list at every occurrence of `c` (Python
`str.split(sep)` semantics for a one-character separator). -/
def splitOnCharList (c : Char) : List Char → List (List Char)
  | [] => [[]]
  | x :: xs =>
      let r := splitOnCharList c xs
      if x == c then [] :: r
      else
        match r with
        | [] => [[x]]
        | h :: t => (x :: h) :: t

/-- Python `s.split(sep)` for a one-character separator. -/
def splitStrOnChar (c : Char) (s : String) : List String :=
  (splitOnCharList c s.toList).map String.mk

/-- Split of a character list at every (leftmost-first) occurrence of
`::` (Python `s.split("::")`). -/
def splitOnDColonList : List Char → List (List Char)
  | [] => [[]]
  | ':' :: ':' :: xs => [] :: splitOnDColonList xs
  | x :: xs =>
      match splitOnDColonList xs with
      | [] => [[x]]
      | h :: t => (x :: h) :: t

/-- Python `s.split("::")`. -/
def splitStrOnDColon (s : String) : List String :=
  (splitOnDColonList s.toList).map String.mk

/-- Python `s.startswith(p)`. -/
def startsWithStr (s p : String) : Bool := p.toList.isPrefixOf s.toList

/-- Python `\w` (word character) for the compiled `\b word \b` patterns
(ASCII range; the configured words are plain ASCII words). -/
def isWordChar (c : Char) : Bool :=
  c.isAlpha || c.isDigit || c == '_'

/-- Whether `w` occurs in `s` starting at its head, followed by a word
boundary (end of string or a non-word character). -/
def wordAtHead (w s : List Char) : Bool :=
  match w, s with
  | [], [] => true
  | [], c :: _ => !isWordChar c
  | _ :: _, [] => false
  | a :: w', c :: s' => a == c && wordAtHead w' s'

/-- Scan of `s` for a `\b w \b` match; `prev` is the character before the
current position (none at the start of the string). -/
def wordScan (w : List Char) (prev : Option Char) : List Char → Bool
  | [] => (match prev with | none => true | some p => !isWordChar p) && wordAtHead w []
  | c :: s' =>
      ((match prev with | none => true | some p => !isWordChar p) && wordAtHead w (c :: s'))
      || wordScan w (some c) s'

/-- Case-insensitive `\b w \b` regex search of `pattern.search(content)`. -/
def containsWord (w : String) (content : String) : Bool :=
  wordScan (w.toList.map lowerChar) none (content.toList.map lowerChar)

/-- Check of `moderate_content`: `true` when the content is blocked, i.e.
moderation is enabled and some configured pattern matches. -/
def moderate_content_blocked (cfg : ModCfg) (content : String) : Bool :=
  cfg.enabled && cfg.words.any fun w => containsWord w content

/-- Hostname extraction of `urllib.parse.urlparse(image_url).hostname or ""`,
for URLs that begin with `https://` (the only case the gate reaches it):
the netloc is the text up to the first `/`, `?` or `#`; userinfo up to the
last `@` is dropped; a bracketed IPv6 literal is the text inside `[...]`;
otherwise a `:port` suffix is dropped; the result is lowercased. -/
def url_hostname (url : String) : String :=
  if startsWithStr url "https://" then
    let rest := (url.drop 8).toList
    let netloc := rest.takeWhile fun c => c != '/' && c != '?' && c != '#'
    let netlocStr := String.mk netloc
    let hostinfo := (((splitStrOnChar '@' netlocStr).getLast?).getD netlocStr).toList
    let hostname :=
      if hostinfo.contains '[' then
        ((hostinfo.dropWhile (· != '[')).drop 1).takeWhile (· != ']')
      else
        hostinfo.takeWhile (· != ':')
    strLower (String.mk hostname)
  else ""

/-- Decimal octet of a dotted-quad IPv4 literal, as `ipaddress` accepts it:
one to three digits, no leading zero, value at most 255. -/
def parseDecOctet (s : String) : Option Nat :=
  let cs := s.toList
  if cs.isEmpty || cs.length > 3 then none
  else if !cs.all Char.isDigit then none
  else if cs.length > 1 && cs.head? == some '0' then none
  else
    let v := cs.foldl (fun a c => a * 10 + (c.toNat - '0'.toNat)) 0
    if v ≤ 255 then some v else none

/-- Parse of an IPv4 literal (`ipaddress.IPv4Address`) to its 32-bit value. -/
def parseIPv4 (s : String) : Option Nat :=
  match ((splitStrOnChar '.' s).mapM parseDecOctet) with
  | some [a, b, c, d] => some (((a * 256 + b) * 256 + c) * 256 + d)
  | _ => none

/-- Value of a hexadecimal digit, by code point: `0`-`9` are 48-57,
`a`-`f` are 97-102, `A`-`F` are 65-70. -/
def hexVal (c : Char) : Option Nat :=
  let n := c.toNat
  if 48 ≤ n && n ≤ 57 then some (n - 48)
  else if 97 ≤ n && n ≤ 102 then some (n - 87)
  else if 65 ≤ n && n ≤ 70 then some (n - 55)
  else none

/-- Hextet of an IPv6 literal: one to four hex digits. -/
def parseHexGroup (s : String) : Option Nat :=
  let cs := s.toList
  if cs.isEmpty || cs.length > 4 then none
  else (cs.mapM hexVal).map fun ds => ds.foldl (fun a d => a * 16 + d) 0

/-- Sixteen-bit groups denoted by one side of an IPv6 literal (no `::`
inside): hextets separated by `:`, where the final group may be an
embedded dotted-quad IPv4 (two groups) when `v4tail` is allowed. -/
def parseGroups (v4tail : Bool) (part : String) : Option (List Nat) :=
  if part.isEmpty then some [] else
  let ps := splitStrOnChar ':' part
  match ps.getLast? with
  | none => none
  | some last =>
      let front := ps.dropLast
      match front.mapM parseHexGroup with
      | none => none
      | some gs =>
          if v4tail && last.toList.contains '.' then
            match parseIPv4 last with
            | some v => some (gs ++ [v / 65536, v % 65536])
            | none => none
          else
            match parseHexGroup last with
            | some g => some (gs ++ [g])
            | none => none

/-- The 128-bit value of a list of 16-bit groups. -/
def assembleGroups (gs : List Nat) : Nat :=
  gs.foldl (fun a g => a * 65536 + g) 0

/-- Parse of an IPv6 literal (`ipaddress.IPv6Address`) to its 128-bit
value: at most one `::` compression standing for the missing zero groups,
eight groups in total, optionally ending in an embedded IPv4. -/
def parseIPv6 (s : String) : Option Nat :=
  match splitStrOnDColon s with
  | [p] =>
      match parseGroups true p with
      | some gs => if gs.length == 8 then some (assembleGroups gs) else none
      | none => none
  | [l, r] =>
      match parseGroups false l, parseGroups true r with
      | some gl, some gr =>
          if gl.length + gr.length ≤ 7 then
            some (assembleGroups (gl ++ List.replicate (8 - gl.length - gr.length) 0 ++ gr))
          else none
      | _, _ => none
  | _ => none

/-- An address parsed by `ipaddress.ip_address`: an IPv4 value or an IPv6
value. -/
inductive IpAddr where
  | v4 (n : Nat) : IpAddr
  | v6 (n : Nat) : IpAddr
deriving Repr, DecidableEq

/-- Model of `ipaddress.ip_address(hostname)`: IPv4 is tried first, then
IPv6; failure of both is the `ValueError` branch. -/
def ip_address (s : String) : Option IpAddr :=
  match parseIPv4 s with
  | some n => some (.v4 n)
  | none =>
      match parseIPv6 s with
      | some n => some (.v6 n)
      | none => none

/-- Membership of a 32-bit value in an IPv4 network given by its value and
prefix length. -/
def v4InNet (n net len : Nat) : Bool :=
  n / 2 ^ (32 - len) == net / 2 ^ (32 - len)

/-- Membership of a 128-bit value in an IPv6 network given by its value
and prefix length. -/
def v6InNet (n net len : Nat) : Bool :=
  n / 2 ^ (128 - len) == net / 2 ^ (128 - len)

/-- The `is_loopback` property of `ipaddress`: `127.0.0.0/8` or `::1`. -/
def IpAddr.isLoopback : IpAddr → Bool
  | .v4 n => v4InNet n 0x7F000000 8
  | .v6 n => n == 1

/-- The `is_link_local` property of `ipaddress`: `169.254.0.0/16` or
`fe80::/10`. -/
def IpAddr.isLinkLocal : IpAddr → Bool
  | .v4 n => v4InNet n 0xA9FE0000 16
  | .v6 n => v6InNet n (0xFE80 * 2 ^ 112) 10

/-- The `is_private` property of `ipaddress`: membership in the CPython
`_private_networks` lists for the respective family. -/
def IpAddr.isPrivate : IpAddr → Bool
  | .v4 n =>
      v4InNet n 0x00000000 8 || v4InNet n 0x0A000000 8 || v4InNet n 0x7F000000 8
      || v4InNet n 0xA9FE0000 16 || v4InNet n 0xAC100000 12 || v4InNet n 0xC0000000 29
      || v4InNet n 0xC00000AA 31 || v4InNet n 0xC0000200 24 || v4InNet n 0xC0A80000 16
      || v4InNet n 0xC6120000 15 || v4InNet n 0xC6336400 24 || v4InNet n 0xCB007100 24
      || v4InNet n 0xF0000000 4 || n == 0xFFFFFFFF
  | .v6 n =>
      n == 1 || n == 0 || v6InNet n (0xFFFF * 2 ^ 32) 96
      || v6InNet n (0x0100 * 2 ^ 112) 64 || v6InNet n (0x2001 * 2 ^ 112) 23
      || v6InNet n (0x2001 * 2 ^ 112 + 0x2 * 2 ^ 96) 48
      || v6InNet n (0x2001 * 2 ^ 112 + 0x0DB8 * 2 ^ 96) 32
      || v6InNet n (0x2001 * 2 ^ 112 + 0x10 * 2 ^ 96) 28
      || v6InNet n (0xFC00 * 2 ^ 112) 7 || v6InNet n (0xFE80 * 2 ^ 112) 10

/-- The `is_reserved` property of `ipaddress`: `240.0.0.0/4` for IPv4, the
CPython `_reserved_networks` list for IPv6. -/
def IpAddr.isReserved : IpAddr → Bool
  | .v4 n => v4InNet n 0xF0000000 4
  | .v6 n =>
      v6InNet n 0 8 || v6InNet n (0x0100 * 2 ^ 112) 8 || v6InNet n (0x0200 * 2 ^ 112) 7
      || v6InNet n (0x0400 * 2 ^ 112) 6 || v6InNet n (0x0800 * 2 ^ 112) 5
      || v6InNet n (0x1000 * 2 ^ 112) 4 || v6InNet n (0x4000 * 2 ^ 112) 3
      || v6InNet n (0x6000 * 2 ^ 112) 3 || v6InNet n (0x8000 * 2 ^ 112) 3
      || v6InNet n (0xA000 * 2 ^ 112) 3 || v6InNet n (0xC000 * 2 ^ 112) 3
      || v6InNet n (0xE000 * 2 ^ 112) 4 || v6InNet n (0xF000 * 2 ^ 112) 5
      || v6InNet n (0xF800 * 2 ^ 112) 6 || v6InNet n (0xFE00 * 2 ^ 112) 9

/-- The literal hostnames rejected outright by `moderate_image`. -/
def blocked_hosts : List String := ["localhost", "127.0.0.1", "0.0.0.0", "::1"]

/-- Check of `moderate_image`: `none` when the URL passes (it is returned
unchanged), `some detail` for the raised `ModerationError`.  The function
is pure: it inspects the URL string only and performs no network access. -/
def moderate_image (cfg : ModCfg) (image_url : String) : Option String :=
  if !cfg.enabled then none
  else if !(startsWithStr image_url "https://") then some "Image URLs must use HTTPS"
  else
    let hostname := url_hostname image_url
    if blocked_hosts.contains hostname then
      some "Image URLs cannot reference local addresses"
    else
      match ip_address hostname with
      | some addr =>
          if addr.isLoopback then some "Image URLs cannot reference local addresses"
          else if addr.isPrivate || addr.isLinkLocal || addr.isReserved then
            some "Image URLs cannot reference private network addresses"
          else none
      | none => none

/-! ## Message channel (`server/channel.py`) -/

/-- Comparison by `created_at` used for `ORDER BY created_at ASC`. -/
def msgLe (a b : Message) : Prop := a.createdAt ≤ b.createdAt

instance : DecidableRel msgLe := fun a b => Nat.decLe a.createdAt b.createdAt

instance : IsTotal Message msgLe := ⟨fun a b => Nat.le_total a.createdAt b.createdAt⟩

instance : IsTrans Message msgLe := ⟨fun _ _ _ h h2 => Nat.le_trans h h2⟩

/-- Model of `ORDER BY created_at ASC`: a stable insertion sort on
`created_at` (SQLite leaves the relative order of equal keys unspecified;
the model fixes it to insertion order). -/
def sortByTime (l : List Message) : List Message := List.insertionSort msgLe l

/-- Rows of `messages` belonging to one game, in insertion order. -/
def gameMessages (st : St) (game_id : String) : List Message :=
  st.messages.filter fun m => m.gameId == game_id

/-- Model of `channel.post_message`: unconditionally INSERTs a new row
(the channel performs no checks; they live in the routes).  The fresh
`uuid4` id and the clock reading are the explicit `msg_id` / `now`
parameters.  As in the source, a falsy `to_agents` (`None` or `[]`) and a
falsy `metadata` are stored as NULL. -/
def post_message (st : St) (game_id : String) (agent_id : Option String)
    (content : String) (msg_type : String)
    (metadata : Option (List (String × Jsn)) := none)
    (image_url : Option String := none) (to_agents : Option (List String) := none)
    (msg_id : String := "") (now : Nat := 0) : St × Message :=
  let storedTo := match to_agents with
    | some (a :: rest) => some (a :: rest)
    | _ => none
  let storedMeta := match metadata with
    | some (f :: rest) => some (f :: rest)
    | _ => none
  let msg : Message :=
    { id := msg_id, gameId := game_id, agentId := agent_id, type := msg_type,
      content := content, imageUrl := image_url, toAgents := storedTo,
      metadata := storedMeta, createdAt := now }
  ({ st with messages := st.messages ++ [msg] }, msg)

/-- Model of `channel.get_messages`: messages of the game, optionally
restricted to those with `created_at` strictly greater than that of the
`after` message (an unknown `after` id yields the empty list; a falsy `after`
of `""` is treated like `None`, as `if after:` does), ordered by
`created_at` ascending, capped at `limit`. -/
def get_messages (st : St) (game_id : String) (after : Option String := none)
    (limit : Nat := 100) : List Message :=
  match after with
  | some a =>
      if a == "" then (sortByTime (gameMessages st game_id)).take limit
      else
        match st.messages.find? fun m => m.id == a && m.gameId == game_id with
        | some row =>
            (sortByTime ((gameMessages st game_id).filter
              fun m => row.createdAt < m.createdAt)).take limit
        | none => []
  | none => (sortByTime (gameMessages st game_id)).take limit

/-- Model of `channel.get_message`: a single row by id within the game. -/
def get_message (st : St) (game_id msg_id : String) : Option Message :=
  st.messages.find? fun m => m.id == msg_id && m.gameId == game_id

/-- Modelled from the spec: `get_latest_message_id` is imported by
`server/routes/messages.py` from `server.channel` but its definition is
not among the available sources.  Per the spec the staleness check
compares `after` with the current latest message id of the session, i.e. the
id of the most recent message of the game — the last row in `created_at`
order — or `None` when the game has no messages. -/
def get_latest_message_id (st : St) (game_id : String) : Option String :=
  ((sortByTime (gameMessages st game_id)).getLast?).map fun m => m.id

/-- Agent display name joined from the `agents` table
(`LEFT JOIN agents a ON m.agent_id = a.id`). -/
def agentNameOf (st : St) (agent_id : Option String) : Option String :=
  agent_id.bind fun a => (st.agents.find? fun r => r.id == a).map fun r => r.name

/-! ## Message routes (`server/routes/messages.py`) -/

/-- The recognised message kinds (`VALID_MSG_TYPES`). -/
def VALID_MSG_TYPES : List String :=
  ["narrative", "action", "roll", "system", "ooc", "sheet"]

/-- Python `dict.setdefault`: add the key at the end when absent, keep the
stored value when present. -/
def setdefault (fs : List (String × Jsn)) (k : String) (v : Jsn) :
    List (String × Jsn) :=
  if (Jsn.lookup fs k).isSome then fs else fs ++ [(k, v)]

/-- Model of `_maybe_extract_dm_json`.  Returns the stored content string,
the metadata, and the whisper entries to auto-post (`none` when there are
none).  When the content parses as a JSON object with a `"narration"` key:
the content becomes `str(narration)`, a truthy `respond` value is merged
into the metadata via `setdefault`, an empty resulting metadata dict
becomes `None`, and a `whispers` list is passed through; any other
content is returned unchanged. -/
def maybe_extract_dm_json (content : PostContent)
    (metadata : Option (List (String × Jsn))) :
    String × Option (List (String × Jsn)) × Option (List Jsn) :=
  match content with
  | .text s => (s, metadata, none)
  | .json raw j =>
      match j with
      | .objv fs =>
          match Jsn.lookup fs "narration" with
          | none => (raw, metadata, none)
          | some nar =>
              let narration := nar.pyStr
              let md0 := metadata.getD []
              let md1 := match Jsn.lookup fs "respond" with
                | some r => if r.truthy then setdefault md0 "respond" r else md0
                | none => md0
              let whispers : Option (List Jsn) := match Jsn.lookup fs "whispers" with
                | some (.arrv ws) => some ws
                | _ => none
              (narration, if md1.isEmpty then none else some md1, whispers)
      | _ => (raw, metadata, none)

/-- Model of `_resolve_character_names`: each name is looked up in the
`players` table of the game by `character_name`; names without a row are
dropped. -/
def resolve_character_names (st : St) (game_id : String) (names : List String) :
    List String :=
  names.filterMap fun n =>
    (st.players.find? fun p => p.gameId == game_id && p.characterName == some n).map
      fun p => p.agentId

/-- The auto-post loop over extracted whisper entries: entries whose
`content` or `to` value is falsy are skipped, the `to` names are resolved
through the roster, and entries resolving to no agent id are skipped;
the rest are posted as `narrative` whispers in order.  Entries that are
not JSON objects make `w.get` raise in the source (an unhandled 500);
they are outside the modelled domain and skipped here, as are non-string
elements of a `to` array (for which the source would query the roster
with a non-string value and find nothing, or raise on unhashable
values). -/
def postWhispers (st : St) (game_id agent_id : String) (ws : List Jsn)
    (freshIds : Nat → String) (k : Nat) (now : Nat) : St :=
  match ws with
  | [] => st
  | w :: rest =>
      match w with
      | .objv fs =>
          let wContent := (Jsn.lookup fs "content").getD (.strv "")
          let wToNames := (Jsn.lookup fs "to").getD (.arrv [])
          if !wContent.truthy || !wToNames.truthy then
            postWhispers st game_id agent_id rest freshIds k now
          else
            let to_agent_ids := resolve_character_names st game_id wToNames.strList
            if to_agent_ids.isEmpty then
              postWhispers st game_id agent_id rest freshIds k now
            else
              let st1 := (post_message st game_id (some agent_id) wContent.pyStr
                "narrative" none none (some to_agent_ids) (freshIds k) now).1
              postWhispers st1 game_id agent_id rest freshIds (k + 1) now
      | _ => postWhispers st game_id agent_id rest freshIds k now

/-- The body of `POST /games/.../messages` (`PostMessageRequest`). -/
structure PostMessageRequest where
  content : PostContent
  type : String := "action"
  imageUrl : Option String := none
  toAgents : Option (List String) := none
  metadata : Option (List (String × Jsn)) := none
  after : Option String := none

/-- The check sequence of the `post_game_message` route up to and
including moderation, in source order: game exists; caller has a
membership that is neither muted nor kicked; the `X-Session-Token` header
is present and matches; the type is recognised; `narrative`/`system`
require the `dm` role; before the game starts only `ooc`/`sheet` pass;
the content and any image reference pass the moderation gate.  Returns
the game and membership rows on success. -/
def post_message_checks (cfg : ModCfg) (st : St) (game_id : String)
    (req : PostMessageRequest) (agent : Agent) (sessionToken : Option String) :
    Except ApiErr (Game × Player) := do
  let some game := st.games.find? fun g => g.id == game_id
    | throw ⟨404, "Game not found"⟩
  let some player := st.players.find? fun p =>
      p.gameId == game_id && p.agentId == agent.id
    | throw ⟨403, "Not a participant in this game"⟩
  if player.status == "muted" then throw ⟨403, "You are muted in this game"⟩
  if player.status == "kicked" then throw ⟨403, "You were kicked from this game"⟩
  let token := sessionToken.getD ""
  if token == "" then throw ⟨403, "X-Session-Token header required"⟩
  if token != player.sessionToken then throw ⟨403, "Invalid session token"⟩
  if !(VALID_MSG_TYPES.contains req.type) then throw ⟨400, "Invalid message type"⟩
  if (req.type == "narrative" || req.type == "system") && player.role != "dm" then
    throw ⟨403, "Only the DM can post narrative and system messages"⟩
  if game.status == "open" && !(req.type == "ooc" || req.type == "sheet") then
    throw ⟨400, "Game has not started yet. You can post ooc or sheet messages while waiting."⟩
  if moderate_content_blocked cfg req.content.asString then
    throw ⟨422, "Message blocked by content filter. Please keep content appropriate for all audiences."⟩
  let iurl := req.imageUrl.getD ""
  if iurl != "" then
    match moderate_image cfg iurl with
    | some detail => throw ⟨422, detail⟩
    | none => pure ()
  return (game, player)

/-- The staleness check of the `post_game_message` route: only performed
when `after` was supplied, and only failing when the session has a latest
message id and it differs from `after`. -/
def staleness_check (st : St) (game_id : String) (after : Option String) :
    Except ApiErr Unit :=
  match after with
  | some a =>
      match get_latest_message_id st game_id with
      | some latest =>
          if latest != a then
            .error ⟨409, "Stale state: new messages exist since your last read. Poll messages and retry."⟩
          else .ok ()
      | none => .ok ()
  | none => .ok ()

/-- The write phase of the `post_game_message` route: the DM safety-net
extraction (narrator role and `narrative`/`system` type only), the main
insert, then the auto-posted whispers. -/
def post_message_commit (st : St) (game_id : String) (req : PostMessageRequest)
    (agent : Agent) (player : Player) (freshIds : Nat → String) (now : Nat) :
    Message × St :=
  let (content, metadata, whispers) :=
    if player.role == "dm" && (req.type == "narrative" || req.type == "system") then
      maybe_extract_dm_json req.content req.metadata
    else
      (req.content.asString, req.metadata, none)
  let (st1, msg) := post_message st game_id (some agent.id) content req.type metadata
    req.imageUrl req.toAgents (freshIds 0) now
  let st2 := postWhispers st1 game_id agent.id (whispers.getD []) freshIds 1 now
  (msg, st2)

/-- Model of the `post_game_message` route.  The authenticated agent, the
`X-Session-Token` header, the fresh uuid draws and the clock reading are
explicit parameters.  An `ApiErr` result models the `HTTPException`
raised before any insert, so the store is unchanged in every error
case. -/
def post_game_message (cfg : ModCfg) (st : St) (game_id : String)
    (req : PostMessageRequest) (agent : Agent) (sessionToken : Option String)
    (freshIds : Nat → String) (now : Nat) : Except ApiErr (Message × St) := do
  let (_, player) ← post_message_checks cfg st game_id req agent sessionToken
  let () ← staleness_check st game_id req.after
  return post_message_commit st game_id req agent player freshIds now

/-- Model of `_can_see_whisper`: a message with falsy `to_agents` is
public; otherwise only an authenticated requester who is a recipient or
the author sees it. -/
def can_see_whisper (msg : Message) (agent : Option Agent) : Bool :=
  match msg.toAgents with
  | none => true
  | some recips =>
      if recips.isEmpty then true
      else
        match agent with
        | none => false
        | some a => recips.contains a.id || msg.agentId == some a.id

/-- The poll response (`GameMessagesResponse`); the fixed role-guide
`instructions` text is omitted as irrelevant to the modelled claims. -/
structure GameMessagesResponse where
  messages : List Message
  role : String
  latestMessageId : Option String
  pollIntervalSeconds : Nat
deriving Repr

/-- Model of the `get_game_messages` poll route.  The handler only reads;
the unchanged store is returned alongside the response to make that
statable. -/
def get_game_messages (st : St) (game_id : String) (after : Option String)
    (limit : Nat) (include_whispers : Bool) (agent : Option Agent) :
    Except ApiErr GameMessagesResponse × St :=
  ((do
    let some game := st.games.find? fun g => g.id == game_id
      | throw ⟨404, "Game not found"⟩
    let messages := get_messages st game_id after limit
    let visible := if include_whispers then messages
      else messages.filter fun m => can_see_whisper m agent
    let role := match agent with
      | some a =>
          match st.players.find? fun p => p.gameId == game_id && p.agentId == a.id with
          | some p => p.role
          | none => ""
      | none => ""
    let latest := (visible.getLast?).map fun m => m.id
    pure { messages := visible, role := role, latestMessageId := latest,
           pollIntervalSeconds := game.config.pollIntervalSeconds }),
   st)

/-- Model of the `get_single_message` route: lookup then the same
visibility rule, with an invisible whisper reported as 404. -/
def get_single_message (st : St) (game_id msg_id : String) (agent : Option Agent) :
    Except ApiErr Message := do
  let some msg := get_message st game_id msg_id
    | throw ⟨404, "Message not found"⟩
  if !(can_see_whisper msg agent) then throw ⟨404, "Message not found"⟩
  return msg

/-- One line of the plain-text transcript.  The rows `get_messages`
returns carry no `character_name` key, so the author display is the
joined agent name, or `System` when there is none (or it is empty). -/
def transcriptLine (st : St) (m : Message) : String :=
  let agent_name := (agentNameOf st m.agentId).getD ""
  let author_display := if agent_name == "" then "System" else agent_name
  let to_agents := m.toAgents.getD []
  let whisper_tag :=
    if to_agents.isEmpty then ""
    else " [whisper to " ++ String.intercalate ", " to_agents ++ "]"
  "[" ++ strUpper m.type ++ "]" ++ whisper_tag ++ " " ++ author_display ++ ": " ++ m.content

/-- Model of the `get_transcript` route: every message of the game except
`sheet` rows, rendered for anyone — the route takes no requester at all.
The source joins the lines with blank lines; the model returns the
list. -/
def get_transcript (st : St) (game_id : String) : Except ApiErr (List String) := do
  let some _ := st.games.find? fun g => g.id == game_id
    | throw ⟨404, "Game not found"⟩
  let messages := get_messages st game_id none 500
  return (messages.filter fun m => m.type != "sheet").map (transcriptLine st)

/-! ## Game routes (`server/routes/games.py`) -/

/-- The body of `POST /games/.../join`. -/
structure JoinGameRequest where
  characterName : Option String := none
deriving Repr, DecidableEq

/-- The join response (fields the claims mention). -/
structure JoinGameResponse where
  status : String
  gameId : String
  sessionToken : String
deriving Repr, DecidableEq

/-- Model of the `join_game` route.  The fresh session token, the system
message uuid and the clock reading are explicit parameters. -/
def join_game (st : St) (game_id : String) (req : JoinGameRequest) (agent : Agent)
    (freshToken : String) (msg_id : String) (now : Nat) :
    Except ApiErr (JoinGameResponse × St) := do
  let some game := st.games.find? fun g => g.id == game_id
    | throw ⟨404, "Game not found"⟩
  if game.status == "completed" || game.status == "cancelled" then
    throw ⟨400, "Game is no longer active"⟩
  if game.status == "in_progress" && !game.config.allowMidSessionJoin then
    throw ⟨400, "Mid-session join not allowed"⟩
  match st.players.find? fun p => p.gameId == game_id && p.agentId == agent.id with
  | some existing =>
      if existing.status == "kicked" then throw ⟨403, "You were kicked from this game"⟩
      else throw ⟨409, "Already in game"⟩
  | none => pure ()
  let count := (st.players.filter fun p =>
      p.gameId == game_id && p.role == "player" && p.status == "active").length
  if count ≥ game.config.maxPlayers then throw ⟨400, "Game is full"⟩
  let newPlayer : Player :=
    { gameId := game_id, agentId := agent.id, characterName := req.characterName,
      role := "player", status := "active", sessionToken := freshToken }
  let st1 : St := { st with players := st.players ++ [newPlayer] }
  let char_info := match req.characterName with
    | some c => if c == "" then "" else " as " ++ c
    | none => ""
  let st2 := (post_message st1 game_id none (agent.name ++ " joined" ++ char_info ++ ".")
    "system" none none none msg_id now).1
  return ({ status := "joined", gameId := game_id, sessionToken := freshToken }, st2)

/-- Model of the `leave_game` route: the membership row is DELETEd
whatever its status, then a system message is posted. -/
def leave_game (st : St) (game_id : String) (agent : Agent) (msg_id : String)
    (now : Nat) : Except ApiErr St := do
  let some _ := st.games.find? fun g => g.id == game_id
    | throw ⟨404, "Game not found"⟩
  let some player := st.players.find? fun p =>
      p.gameId == game_id && p.agentId == agent.id
    | throw ⟨404, "Not in game"⟩
  if player.role == "dm" then throw ⟨400, "DM cannot leave their own game"⟩
  let st1 : St := { st with players := st.players.filter fun p =>
      !(p.gameId == game_id && p.agentId == agent.id) }
  let st2 := (post_message st1 game_id none (agent.name ++ " left the game.")
    "system" none none none msg_id now).1
  return st2

/-! ## Admin actions (`server/admin.py`) -/

/-- Model of `_verify_dm`. -/
def verify_dm (st : St) (game_id dm_id : String) : Except ApiErr Unit := do
  let some game := st.games.find? fun g => g.id == game_id
    | throw ⟨404, "Game not found"⟩
  if game.dmId != dm_id then throw ⟨403, "Only the DM can perform this action"⟩
  return ()

/-- Model of `kick_player`: requires an existing `player`-role row, sets
its status to `kicked`, and posts a system message (the reason passes the
moderation gate and is replaced by `[moderated]` when blocked). -/
def kick_player (cfg : ModCfg) (st : St) (game_id dm_id target_id : String)
    (reason : String) (msg_id : String) (now : Nat) : Except ApiErr St := do
  let _ ← verify_dm st game_id dm_id
  let some _ := st.players.find? fun p =>
      p.gameId == game_id && p.agentId == target_id && p.role == "player"
    | throw ⟨404, "Player not found in game"⟩
  let st1 : St := { st with players := st.players.map fun p =>
      if p.gameId == game_id && p.agentId == target_id then { p with status := "kicked" }
      else p }
  let name := ((st.agents.find? fun a => a.id == target_id).map fun a => a.name).getD target_id
  let msgText := name ++ " was kicked from the game." ++
    (if reason != "" then
      " Reason: " ++ (if moderate_content_blocked cfg reason then "[moderated]" else reason)
    else "")
  return (post_message st1 game_id none msgText "system" none none none msg_id now).1

/-- Model of `mute_player`: UPDATEs only `active` `player` rows, then
posts a system message; it reports success whether or not a row
matched. -/
def mute_player (st : St) (game_id dm_id target_id : String) (msg_id : String)
    (now : Nat) : Except ApiErr St := do
  let _ ← verify_dm st game_id dm_id
  let st1 : St := { st with players := st.players.map fun p =>
      if p.gameId == game_id && p.agentId == target_id && p.role == "player"
          && p.status == "active" then { p with status := "muted" }
      else p }
  let name := ((st.agents.find? fun a => a.id == target_id).map fun a => a.name).getD target_id
  return (post_message st1 game_id none (name ++ " was muted.") "system" none none none
    msg_id now).1

/-- Model of `unmute_player`: UPDATEs only `muted` `player` rows — a
`kicked` row is untouched — then posts a system message; it reports
success whether or not a row matched. -/
def unmute_player (st : St) (game_id dm_id target_id : String) (msg_id : String)
    (now : Nat) : Except ApiErr St := do
  let _ ← verify_dm st game_id dm_id
  let st1 : St := { st with players := st.players.map fun p =>
      if p.gameId == game_id && p.agentId == target_id && p.role == "player"
          && p.status == "muted" then { p with status := "active" }
      else p }
  let name := ((st.agents.find? fun a => a.id == target_id).map fun a => a.name).getD target_id
  return (post_message st1 game_id none (name ++ " was unmuted.") "system" none none none
    msg_id now).1

/-! ## Inactivity sweeper (`server/app.py`) -/

/-- Timestamp of the most recent message of the game, or the game
creation time when it has none (`ORDER BY created_at DESC LIMIT 1`). -/
def lastActivity (st : St) (game : Game) : Nat :=
  match (sortByTime (gameMessages st game.id)).getLast? with
  | some m => m.createdAt
  | none => game.createdAt

/-- The closing step for one idle game: its rows are UPDATEd to
`completed` and the closure system message is posted. -/
def sweepStep (st : St) (g : Game) (timeout : Int) (mid : String) (now : Nat) : St :=
  (post_message { st with games := st.games.map fun x =>
      if x.id == g.id then { x with status := "completed" } else x }
    g.id none ("Game closed due to inactivity (" ++ toString (timeout / 60)
      ++ " minutes with no messages).") "system" none none none mid now).1

/-- The sweep loop body over the snapshot of active games: each game whose
elapsed idle time reaches the timeout is closed; the store is threaded
live, as the source re-queries it at each turn. -/
def sweepGames (timeout : Int) (now : Nat) (freshIds : Nat → String) :
    List Game → St × Nat → St × Nat
  | [], acc => acc
  | g :: rest, (st, closed) =>
      if timeout ≤ (now : Int) - (lastActivity st g : Int) then
        sweepGames timeout now freshIds rest
          (sweepStep st g timeout (freshIds closed) now, closed + 1)
      else
        sweepGames timeout now freshIds rest (st, closed)

/-- Model of one pass of `_close_inactive_games`: with a non-positive
configured timeout it does nothing; otherwise it snapshots the games with
status `open` or `in_progress` and sweeps them, returning the new store
and the number of games closed. -/
def close_inactive_games (st : St) (timeout : Int) (now : Nat)
    (freshIds : Nat → String) : St × Nat :=
  if timeout ≤ 0 then (st, 0)
  else
    let active := st.games.filter fun g => g.status == "open" || g.status == "in_progress"
    sweepGames timeout now freshIds active (st, 0)

/-! ## Derived views used in theorem statements -/

/-- The URL uses the secure transport scheme the gate requires
(the literal `https://` prefix check of the source). -/
def secure_scheme (url : String) : Bool := startsWithStr url "https://"

/-- The host of the URL is one the gate treats as local or private: a
blocked local hostname, or an IP literal that is loopback, private,
link-local or reserved. -/
def host_flagged (url : String) : Bool :=
  let h := url_hostname url
  blocked_hosts.contains h ||
    match ip_address h with
    | some addr => addr.isLoopback || addr.isPrivate || addr.isLinkLocal || addr.isReserved
    | none => false

/-- The list of whisper messages the auto-post loop appends for the given
entries: one `narrative` whisper per entry that is an object with truthy
`content` and `to` whose names resolve to at least one agent id.  The
roster is read from `st`, which the loop never modifies. -/
def whisperMessages (st : St) (game_id agent_id : String) (ws : List Jsn)
    (freshIds : Nat → String) (k : Nat) (now : Nat) : List Message :=
  match ws with
  | [] => []
  | w :: rest =>
      match w with
      | .objv fs =>
          let wContent := (Jsn.lookup fs "content").getD (.strv "")
          let wToNames := (Jsn.lookup fs "to").getD (.arrv [])
          if !wContent.truthy || !wToNames.truthy then
            whisperMessages st game_id agent_id rest freshIds k now
          else
            let to_agent_ids := resolve_character_names st game_id wToNames.strList
            if to_agent_ids.isEmpty then
              whisperMessages st game_id agent_id rest freshIds k now
            else
              (post_message st game_id (some agent_id) wContent.pyStr "narrative"
                  none none (some to_agent_ids) (freshIds k) now).2
                :: whisperMessages st game_id agent_id rest freshIds (k + 1) now
      | _ => whisperMessages st game_id agent_id rest freshIds k now

/-! ## Concrete fixtures for witnesses and counterexamples -/

/-- Sample narrator agent. -/
def alice : Agent := ⟨"A", "Alice"⟩

/-- Sample player agent. -/
def bob : Agent := ⟨"B", "Bob"⟩

/-- Sample player agent. -/
def carol : Agent := ⟨"C", "Carol"⟩

/-- Sample game row, in progress, capacity 4, mid-session joins allowed. -/
def gameG : Game := ⟨"g", "A", "in_progress", ⟨4, true, 300⟩, 0⟩

/-- Narrator membership row of `gameG`. -/
def playerA : Player := ⟨"g", "A", some "DM", "dm", "active", "tokA"⟩

/-- Player membership row of `gameG` with character name `Rook`. -/
def playerB : Player := ⟨"g", "B", some "Rook", "player", "active", "tokB"⟩

/-- Player membership row of `gameG` without a character name. -/
def playerC : Player := ⟨"g", "C", none, "player", "active", "tokC"⟩

/-- A public narrative message in `gameG`. -/
def msg1 : Message := ⟨"m1", "g", some "A", "narrative", "hello", none, none, none, 1⟩

/-- A whisper from Alice to Bob in `gameG`. -/
def msg2 : Message := ⟨"m2", "g", some "A", "narrative", "psst", none, some ["B"], none, 2⟩

/-- Sample store: one in-progress game with a narrator, two players, one
public message and one whisper. -/
def sampleSt : St :=
  { agents := [alice, bob, carol],
    games := [gameG],
    players := [playerA, playerB, playerC],
    messages := [msg1, msg2] }

/-- Sample store with no messages yet. -/
def emptySt : St := { sampleSt with messages := [] }

/-- Moderation configuration with one configured blocked word. -/
def mod0 : ModCfg := ⟨true, ["blight"]⟩

/-- A deterministic fresh-id supply for concrete runs. -/
def ids0 : Nat → String := fun n => "u" ++ toString n

/-- Store with one game and no members or messages, for the id-order
counterexample. -/
def bareSt : St := { agents := [], games := [gameG], players := [], messages := [] }

/-- State after the narrator kicks Carol from the sample game. -/
def stC5a : St := ((kick_player mod0 sampleSt "g" "A" "C" "" "k1" 3).toOption).getD sampleSt

/-- State after the narrator then unmutes Carol (the call succeeds but
changes no status). -/
def stC5b : St := ((unmute_player stC5a "g" "A" "C" "k2" 4).toOption).getD stC5a

/-- State after kicked Carol then leaves the game (her membership row is
deleted). -/
def stC5c : St := ((leave_game stC5b "g" carol "k3" 5).toOption).getD stC5b

/-- State after Carol, previously kicked, joins the game again. -/
def stC5d : St :=
  (((join_game stC5c "g" ⟨none⟩ carol "tokC2" "k4" 6).toOption).map fun r => r.2).getD stC5c

/-- The system message the sweeper posts when closing an idle game. -/
def closureMsg (game_id : String) (timeout : Int) (mid : String) (now : Nat) : Message :=
  { id := mid, gameId := game_id, agentId := none, type := "system",
    content := "Game closed due to inactivity (" ++ toString (timeout / 60)
      ++ " minutes with no messages).",
    imageUrl := none, toAgents := none, metadata := none, createdAt := now }

/-- Narrator payload: narration plus a whisper to an unknown character
name, as raw text and parsed value. -/
def ghostPayload : PostContent :=
  .json "\x7b\"narration\": \"x\", \"whispers\": [\x7b\"to\": [\"Ghost\"], \"content\": \"boo\"\x7d]\x7d"
    (.objv [("narration", .strv "x"),
           ("whispers", .arrv [.objv [("to", .arrv [.strv "Ghost"]), ("content", .strv "boo")]])])

/-- Narrator payload of the spec example: narration, a respond hint and a
whisper to Rook. -/
def narPayload : PostContent :=
  .json "\x7b\"narration\": \"The lights die.\", \"respond\": [\"Rook\"], \"whispers\": [\x7b\"to\": [\"Rook\"], \"content\": \"Something watches you.\"\x7d]\x7d"
    (.objv [("narration", .strv "The lights die."),
           ("respond", .arrv [.strv "Rook"]),
           ("whispers", .arrv [.objv [("to", .arrv [.strv "Rook"]),
                                    ("content", .strv "Something watches you.")]])])

/-- A fourth agent who has not joined the sample game. -/
def dave : Agent := ⟨"D", "Dave"⟩

/-- A one-seat open game used to exercise the capacity check. -/
def gameSmall : Game := ⟨"s", "A", "open", ⟨1, true, 300⟩, 0⟩

/-- Store for the capacity check: the only player seat is taken. -/
def smallSt : St :=
  { agents := [alice, bob, carol],
    games := [gameSmall],
    players := [⟨"s", "A", none, "dm", "active", "tokA"⟩,
                ⟨"s", "B", none, "player", "active", "tokB"⟩],
    messages := [] }

/-- Narrator payload whose parsed whisper text contains the blocked word
`blight` while the raw text spells it with a JSON escape sequence, so the
raw text passes the moderation gate. -/
def blightPayload : PostContent :=
  .json "\x7b\"narration\": \"All seems calm.\", \"whispers\": [\x7b\"to\": [\"Rook\"], \"content\": \"the bli\\u0067ht comes\"\x7d]\x7d"
    (.objv [("narration", .strv "All seems calm."),
           ("whispers", .arrv [.objv [("to", .arrv [.strv "Rook"]),
                                    ("content", .strv "the blight comes")]])])

/-- State after kicked Carol leaves the sample game directly (her kicked
membership row is deleted). -/
def stC8a : St := ((leave_game stC5a "g" carol "k3" 5).toOption).getD stC5a

/-- State after Carol, previously kicked from the game, joins it again. -/
def stC8b : St :=
  (((join_game stC8a "g" ⟨none⟩ carol "tokC2" "k4" 6).toOption).map fun r => r.2).getD stC8a

/-! ## Theorems -/

/-- C1: posting with `after` equal to the current latest message id of
the session behaves exactly like posting without `after` and, when the
pre-checks pass, succeeds; posting with an `after` differing from the
current latest id fails with 409 (the error is raised before any insert,
so nothing is appended); posting without `after` is never subject to the
staleness check — the outcome is the check pipeline followed by the
write, with the staleness check playing no role.  The latest-id function
itself is modelled from the spec (`get_latest_message_id`). -/
theorem C1_post_staleness (cfg : ModCfg) (st : St) (game_id : String)
    (req : PostMessageRequest) (agent : Agent) (tok : Option String)
    (freshIds : Nat → String) (now : Nat) :
    (∀ a, req.after = some a → get_latest_message_id st game_id = some a →
      post_game_message cfg st game_id req agent tok freshIds now
        = post_game_message cfg st game_id { req with after := none } agent tok freshIds now)
    ∧ (∀ gp a, post_message_checks cfg st game_id req agent tok = .ok gp →
        req.after = some a → get_latest_message_id st game_id = some a →
        post_game_message cfg st game_id req agent tok freshIds now
          = .ok (post_message_commit st game_id req agent gp.2 freshIds now))
    ∧ (∀ gp a latest, post_message_checks cfg st game_id req agent tok = .ok gp →
        req.after = some a → get_latest_message_id st game_id = some latest →
        a ≠ latest →
        post_game_message cfg st game_id req agent tok freshIds now
          = .error ⟨409, "Stale state: new messages exist since your last read. Poll messages and retry."⟩)
    ∧ (req.after = none →
        post_game_message cfg st game_id req agent tok freshIds now
          = (post_message_checks cfg st game_id req agent tok).map
              (fun gp => post_message_commit st game_id req agent gp.2 freshIds now)) := by
  obtain ⟨content, ty, iurl, toA, md, af⟩ := req
  refine ⟨?_, ?_, ?_, ?_⟩
  · intro a h1 h2
    simp only at h1
    subst h1
    simp only [post_game_message, staleness_check, h2, bne_self_eq_false]
    rfl
  · intro gp a hchecks h1 h2
    simp only at h1
    subst h1
    simp only [post_game_message, staleness_check, h2, hchecks, bne_self_eq_false]
    rfl
  · intro gp a latest hchecks h1 h2 hne
    simp only at h1
    subst h1
    simp only [post_game_message, staleness_check, h2, hchecks, bne_iff_ne, ne_eq,
      Ne.symm hne, not_false_eq_true, if_true]
    rfl
  · intro h1
    simp only at h1
    subst h1
    simp only [post_game_message, staleness_check]
    cases post_message_checks cfg st game_id _ agent tok <;> rfl

/-- Witness for C1 at the sample store: a post by Bob carrying
`after = "m2"` (the current latest id) succeeds, and the same post
carrying the stale `after = "zz"` is rejected with 409. -/
theorem C1_post_staleness_witness :
    (post_game_message mod0 sampleSt "g"
        { content := .text "an action", type := "action", after := some "m2" }
        bob (some "tokB") ids0 5
      = .ok (post_message_commit sampleSt "g"
          { content := .text "an action", type := "action", after := some "m2" }
          bob playerB ids0 5))
    ∧ (post_game_message mod0 sampleSt "g"
        { content := .text "an action", type := "action", after := some "zz" }
        bob (some "tokB") ids0 5
      = .error ⟨409, "Stale state: new messages exist since your last read. Poll messages and retry."⟩) :=
  ⟨(C1_post_staleness mod0 sampleSt "g"
      { content := .text "an action", type := "action", after := some "m2" }
      bob (some "tokB") ids0 5).2.1 (gameG, playerB) "m2" (by rfl) rfl (by rfl),
   (C1_post_staleness mod0 sampleSt "g"
      { content := .text "an action", type := "action", after := some "zz" }
      bob (some "tokB") ids0 5).2.2.1 (gameG, playerB) "zz" "m2" (by rfl) rfl (by rfl)
      (by decide)⟩

/-- C2 counterexample: the visibility rule is not applied uniformly.  In
the sample store, `m2` is a whisper from Alice to Bob, yet the transcript
view — which takes no requester at all, so in particular serves
unauthenticated callers — renders its content, and the list endpoint
invoked with the `include_whispers` query flag returns the whisper to an
unauthenticated requester. -/
theorem C2_counterexample :
    (get_message sampleSt "g" "m2" = some msg2 ∧ msg2.toAgents = some ["B"])
    ∧ get_transcript sampleSt "g" =
        .ok ["[NARRATIVE] Alice: hello", "[NARRATIVE] [whisper to B] Alice: psst"]
    ∧ (get_game_messages sampleSt "g" none 100 true none).1 =
        .ok { messages := [msg1, msg2], role := "", latestMessageId := some "m2",
              pollIntervalSeconds := 300 } :=
  ⟨⟨rfl, rfl⟩, rfl, rfl⟩

/-- C2 amended: a message is visible to a requester iff it has no
`to_agents` (or an empty list, which the source treats as public), or the
requester is the author, or the requester is listed in `to_agents`; an
unauthenticated requester never sees a message with a non-empty
`to_agents`; this rule is applied by the message-list endpoint when the
`include_whispers` flag is not set, and by the single-message lookup —
but not by the transcript view, which performs no filtering (see the
counterexample), and the `include_whispers` flag bypasses it on the list
endpoint. -/
theorem C2_visibility_rule :
    (∀ (m : Message) (r : Option Agent),
      can_see_whisper m r = true ↔
        (m.toAgents = none ∨ m.toAgents = some [] ∨
          ∃ a, r = some a ∧ (a.id ∈ m.toAgents.getD [] ∨ m.agentId = some a.id)))
    ∧ (∀ (m : Message) (x : String) (tos : List String),
        m.toAgents = some (x :: tos) → can_see_whisper m none = false)
    ∧ (∀ st g after limit ag resp,
        (get_game_messages st g after limit false ag).1 = .ok resp →
        resp.messages = (get_messages st g after limit).filter
          (fun m => can_see_whisper m ag))
    ∧ (∀ st g mid ag m, get_single_message st g mid ag = .ok m →
        get_message st g mid = some m ∧ can_see_whisper m ag = true) := by
  refine ⟨?_, ?_, ?_, ?_⟩
  · intro m r
    cases hto : m.toAgents with
    | none => simp [can_see_whisper, hto]
    | some recips =>
        cases recips with
        | nil => simp [can_see_whisper, hto]
        | cons x tos =>
            cases r with
            | none => simp [can_see_whisper, hto]
            | some a =>
                simp only [can_see_whisper, hto, List.isEmpty_cons, Bool.false_eq_true,
                  if_false, Bool.or_eq_true, List.elem_iff, beq_iff_eq,
                  Option.some.injEq, reduceCtorEq, false_or, Option.getD_some]
                constructor
                · rintro (hmem | hauth)
                  · exact ⟨a, rfl, Or.inl hmem⟩
                  · exact ⟨a, rfl, Or.inr hauth⟩
                · rintro ⟨b, hb, hx⟩
                  subst hb
                  exact hx
  · intro m x tos hto
    simp [can_see_whisper, hto]
  · intro st g after limit ag resp h
    unfold get_game_messages at h
    cases hf : st.games.find? fun g2 => g2.id == g with
    | none => rw [hf] at h; exact absurd h (by simp [Bind.bind, Except.bind])
    | some game =>
        rw [hf] at h
        simp only [Bind.bind, Except.bind, Bool.false_eq_true, if_false, pure,
          Except.pure, Except.ok.injEq] at h
        subst h
        rfl
  · intro st g mid ag m h
    unfold get_single_message at h
    cases hf : get_message st g mid with
    | none => rw [hf] at h; exact absurd h (by simp [Bind.bind, Except.bind])
    | some found =>
        rw [hf] at h
        by_cases hv : can_see_whisper found ag = true
        · simp only [Bind.bind, Except.bind, hv, Bool.not_true, Bool.false_eq_true,
            if_false, pure, Except.pure, Except.ok.injEq] at h
          subst h
          exact ⟨rfl, hv⟩
        · rw [Bool.not_eq_true] at hv
          simp only [Bind.bind, Except.bind, hv, Bool.not_false, if_true] at h
          exact absurd h (by simp)

/-- Witness for C2 at the sample store: Bob (a recipient) sees the
whisper, an unauthenticated requester does not, the filtered poll for
Carol returns only the public message, and the single-message lookup
succeeds for Bob. -/
theorem C2_visibility_rule_witness :
    can_see_whisper msg2 (some bob) = true
    ∧ can_see_whisper msg2 none = false
    ∧ ({ messages := [msg1], role := "player", latestMessageId := some "m1",
         pollIntervalSeconds := 300 } : GameMessagesResponse).messages =
        (get_messages sampleSt "g" none 100).filter
          (fun m => can_see_whisper m (some carol))
    ∧ (get_message sampleSt "g" "m2" = some msg2 ∧ can_see_whisper msg2 (some bob) = true) :=
  ⟨(C2_visibility_rule.1 msg2 (some bob)).mpr
      (Or.inr (Or.inr ⟨bob, rfl, Or.inl (by decide)⟩)),
   C2_visibility_rule.2.1 msg2 "B" [] rfl,
   C2_visibility_rule.2.2.1 sampleSt "g" none 100 (some carol)
     { messages := [msg1], role := "player", latestMessageId := some "m1",
       pollIntervalSeconds := 300 } rfl,
   C2_visibility_rule.2.2.2 sampleSt "g" "m2" (some bob) msg2 rfl⟩

/-- Helper: a stable insertion sort of a filtered list is a sublist of
the sort of the full list. -/
theorem sortByTime_filter_sublist (p : Message → Bool) (l : List Message) :
    (sortByTime (l.filter p)).Sublist (sortByTime l) := by
  induction l with
  | nil => simp [sortByTime, List.insertionSort]
  | cons x xs ih =>
      rw [List.filter_cons]
      cases hp : p x with
      | false =>
          simp only [Bool.false_eq_true, if_false, sortByTime, List.insertionSort] at *
          exact ih.trans (List.sublist_orderedInsert x _)
      | true =>
          simp only [if_true, sortByTime, List.insertionSort] at *
          exact List.Sublist.orderedInsert_sublist x ih (List.sorted_insertionSort msgLe xs)

/-- Helper: every branch of `get_messages` returns a prefix of a stable
sort of (a sublist of) the game messages, hence a sublist of the sorted
game log. -/
theorem get_messages_sublist_sorted (st : St) (g : String) (after : Option String)
    (limit : Nat) :
    (get_messages st g after limit).Sublist (sortByTime (gameMessages st g)) := by
  unfold get_messages
  cases after with
  | none => exact List.take_sublist _ _
  | some a =>
      by_cases ha : a == ""
      · simp only [ha, if_true]
        exact List.take_sublist _ _
      · simp only [ha, Bool.false_eq_true, if_false]
        cases hf : st.messages.find? fun m => m.id == a && m.gameId == g with
        | none => exact List.nil_sublist _
        | some row =>
            exact (List.take_sublist _ _).trans
              (sortByTime_filter_sublist (fun m => row.createdAt < m.createdAt) _)

/-- C3 counterexample: message ids are `uuid4` draws with no order.  In a
run where the first draw is `"bbb"` and the second `"aaa"`, the second
appended message has an id smaller than the first, and the poll returns
the two ids in decreasing order — refuting both the claimed id
monotonicity and the claimed strictly-increasing ids of a poll. -/
theorem C3_counterexample :
    ((get_messages ((post_message ((post_message bareSt "g" none "one" "system"
          none none none "bbb" 1).1) "g" none "two" "system" none none none "aaa" 2).1)
        "g" none 100).map fun m => m.id) = ["bbb", "aaa"]
    ∧ ((post_message ((post_message bareSt "g" none "one" "system"
          none none none "bbb" 1).1) "g" none "two" "system" none none none "aaa" 2).2).id
        = "aaa"
    ∧ ¬ ("bbb" < "aaa" ∨ "bbb" = "aaa") := by
  refine ⟨rfl, rfl, ?_⟩
  rintro (h | h)
  · rw [String.lt_iff_toList_lt] at h
    exact absurd h (by decide)
  · exact absurd h (by decide)

/-- C3 amended: appended messages receive fresh unique ids, but the ids
carry no order; what is ordered is `created_at`: every poll returns a
`created_at`-sorted sublist of the stable-sorted game log (so any two
polls agree on the relative order of common messages and never reorder
them), and each append adds exactly one row, keeping ids unique when the
drawn id is fresh. -/
theorem C3_ordering :
    (∀ st g after limit,
      List.Pairwise msgLe (get_messages st g after limit))
    ∧ (∀ st g after limit,
      (get_messages st g after limit).Sublist (sortByTime (gameMessages st g)))
    ∧ (∀ st g aid content ty md iu ta mid now,
        (st.messages.map fun m => m.id).Nodup →
        mid ∉ (st.messages.map fun m => m.id) →
        ((post_message st g aid content ty md iu ta mid now).2).id = mid ∧
        (post_message st g aid content ty md iu ta mid now).1.messages.length
          = st.messages.length + 1 ∧
        ((post_message st g aid content ty md iu ta mid now).1.messages.map
          fun m => m.id).Nodup) := by
  refine ⟨?_, get_messages_sublist_sorted, ?_⟩
  · intro st g after limit
    exact List.Pairwise.sublist (get_messages_sublist_sorted st g after limit)
      (List.sorted_insertionSort msgLe (gameMessages st g))
  · intro st g aid content ty md iu ta mid now hnd hni
    refine ⟨rfl, by simp [post_message], ?_⟩
    simp only [post_message, List.map_append, List.map_cons, List.map_nil]
    simp [List.nodup_append, hnd, hni]

/-- Witness for C3 at the sample store: the poll of the sample game is
`created_at`-sorted, and appending with the fresh id `"m3"` keeps the id
set unique. -/
theorem C3_ordering_witness :
    List.Pairwise msgLe (get_messages sampleSt "g" none 100)
    ∧ (((post_message sampleSt "g" (some "B") "hi" "action" none none none "m3" 9).1).messages.map
        fun m => m.id).Nodup :=
  ⟨C3_ordering.1 sampleSt "g" none 100,
   (C3_ordering.2.2 sampleSt "g" (some "B") "hi" "action" none none none "m3" 9
      (by decide) (by decide)).2.2⟩

/-- C4 counterexample: `latest_message_id` is computed from the filtered,
capped list the requester receives, not from the true session head.  In
the sample store the true latest message is the whisper `m2`, but an
unauthenticated poll reports `m1`, and so does an authenticated poll
capped at `limit = 1`. -/
theorem C4_counterexample :
    (get_game_messages sampleSt "g" none 100 false none).1 =
      .ok { messages := [msg1], role := "", latestMessageId := some "m1",
            pollIntervalSeconds := 300 }
    ∧ (get_game_messages sampleSt "g" none 1 false (some bob)).1 =
      .ok { messages := [msg1], role := "player", latestMessageId := some "m1",
            pollIntervalSeconds := 300 }
    ∧ get_latest_message_id sampleSt "g" = some "m2"
    ∧ ("m1" : String) ≠ "m2" :=
  ⟨rfl, rfl, rfl, by decide⟩

/-- C4 amended: the poll is side-effect-free, and `latest_message_id` is
the id of the last message of the returned list — after visibility
filtering, the `after` restriction and the `limit` cap — or null when
that list is empty; it therefore lags the true session head whenever the
newest messages are filtered out or cut off (see the counterexample). -/
theorem C4_poll_latest_id :
    (∀ st g after limit iw ag, (get_game_messages st g after limit iw ag).2 = st)
    ∧ (∀ st g after limit iw ag resp,
        (get_game_messages st g after limit iw ag).1 = .ok resp →
        resp.latestMessageId = (resp.messages.getLast?).map fun m => m.id) := by
  constructor
  · intro st g after limit iw ag
    rfl
  · intro st g after limit iw ag resp h
    unfold get_game_messages at h
    cases hf : st.games.find? fun g2 => g2.id == g with
    | none => rw [hf] at h; exact absurd h (by simp [Bind.bind, Except.bind])
    | some game =>
        rw [hf] at h
        simp only [Bind.bind, Except.bind, pure, Except.pure, Except.ok.injEq] at h
        subst h
        rfl

/-- Witness for C4 at the sample store: the poll leaves the store
unchanged and reports the last visible id. -/
theorem C4_poll_latest_id_witness :
    (get_game_messages sampleSt "g" none 100 false none).2 = sampleSt
    ∧ ({ messages := [msg1], role := "", latestMessageId := some "m1",
         pollIntervalSeconds := 300 } : GameMessagesResponse).latestMessageId =
        (([msg1].getLast?).map fun m => m.id) :=
  ⟨C4_poll_latest_id.1 sampleSt "g" none 100 false none,
   C4_poll_latest_id.2 sampleSt "g" none 100 false none
     { messages := [msg1], role := "", latestMessageId := some "m1",
       pollIntervalSeconds := 300 } rfl⟩

/-- C5 counterexample: kicked is not an absorbing state.  After the
narrator kicks Carol, `unmute` on her does not fail — it returns success
(while leaving the status `kicked`) — and the sequence leave-then-join
returns her to active participation: `leave` deletes the kicked
membership row, after which `join` succeeds and creates a fresh `active`
membership. -/
theorem C5_counterexample :
    kick_player mod0 sampleSt "g" "A" "C" "" "k1" 3 = .ok stC5a
    ∧ ((stC5a.players.find? fun p => p.gameId == "g" && p.agentId == "C").map
        fun p => p.status) = some "kicked"
    ∧ unmute_player stC5a "g" "A" "C" "k2" 4 = .ok stC5b
    ∧ ((stC5b.players.find? fun p => p.gameId == "g" && p.agentId == "C").map
        fun p => p.status) = some "kicked"
    ∧ leave_game stC5b "g" carol "k3" 5 = .ok stC5c
    ∧ (stC5c.players.find? fun p => p.gameId == "g" && p.agentId == "C") = none
    ∧ join_game stC5c "g" ⟨none⟩ carol "tokC2" "k4" 6 =
        .ok ({ status := "joined", gameId := "g", sessionToken := "tokC2" }, stC5d)
    ∧ ((stC5d.players.find? fun p => p.gameId == "g" && p.agentId == "C").map
        fun p => p.status) = some "active" :=
  ⟨rfl, rfl, rfl, rfl, rfl, rfl, rfl, rfl⟩

/-- C5 amended: while the kicked membership row exists the state is
absorbing — a renewed `join` fails with 403, posting fails with 403, and
`unmute` reports success but leaves the row `kicked` (its UPDATE only
matches `muted` rows) — but the kicked agent may still `leave`, deleting
the row, after which a fresh `join` succeeds and returns the agent to
active participation (see the counterexample). -/
theorem C5_kick_absorbing_while_member :
    (∀ st g req agent ftok mid now game row,
      (st.games.find? fun g2 => g2.id == g) = some game →
      (game.status == "completed" || game.status == "cancelled") = false →
      (game.status == "in_progress" && !game.config.allowMidSessionJoin) = false →
      (st.players.find? fun p => p.gameId == g && p.agentId == agent.id) = some row →
      row.status = "kicked" →
      join_game st g req agent ftok mid now = .error ⟨403, "You were kicked from this game"⟩)
    ∧ (∀ cfg st g req agent tok fids now game row,
        (st.games.find? fun g2 => g2.id == g) = some game →
        (st.players.find? fun p => p.gameId == g && p.agentId == agent.id) = some row →
        row.status = "kicked" →
        post_game_message cfg st g req agent tok fids now
          = .error ⟨403, "You were kicked from this game"⟩)
    ∧ (∀ st g dm target mid now st2,
        unmute_player st g dm target mid now = .ok st2 →
        ∀ i, ((st.players.get? i).map fun p => p.status) = some "kicked" →
          ((st2.players.get? i).map fun p => p.status) = some "kicked") := by
  refine ⟨?_, ?_, ?_⟩
  · intro st g req agent ftok mid now game row hg hs1 hs2 hp hk
    unfold join_game
    simp only [hg, Bind.bind, Except.bind, hs1, Bool.false_eq_true, if_false, hs2, hp, hk,
      beq_self_eq_true, if_true]
    rfl
  · intro cfg st g req agent tok fids now game row hg hp hk
    unfold post_game_message post_message_checks
    have hm : (row.status == "muted") = false := by rw [hk]; rfl
    have hk2 : (row.status == "kicked") = true := by rw [hk]; rfl
    simp only [hg, hp, Bind.bind, Except.bind, hm, Bool.false_eq_true, if_false, hk2, if_true]
    rfl
  · intro st g dm target mid now st2 h i hk
    unfold unmute_player at h
    cases hv : verify_dm st g dm with
    | error e => rw [hv] at h; exact absurd h (by simp [Bind.bind, Except.bind])
    | ok u =>
        rw [hv] at h
        simp only [Bind.bind, Except.bind, pure, Except.pure, Except.ok.injEq] at h
        subst h
        simp only [post_message]
        rw [List.get?_map]
        cases hr : st.players.get? i with
        | none => rw [hr] at hk; exact absurd hk (by simp)
        | some p =>
            rw [hr] at hk
            simp at hk
            have : (p.status == "muted") = false := by rw [hk]; rfl
            simp [this, hk]

/-- Witness for C5 at the sample store: a direct re-join after the kick
is rejected with 403, Bob (kicked in a variant store) cannot post, and
the unmute run from the counterexample preserves the kicked row. -/
theorem C5_kick_absorbing_while_member_witness :
    join_game stC5a "g" ⟨none⟩ carol "tokC3" "k9" 7
      = .error ⟨403, "You were kicked from this game"⟩
    ∧ ((stC5b.players.get? 2).map fun p => p.status) = some "kicked" :=
  ⟨C5_kick_absorbing_while_member.1 stC5a "g" ⟨none⟩ carol "tokC3" "k9" 7 gameG
      ⟨"g", "C", none, "player", "kicked", "tokC"⟩ rfl rfl rfl rfl rfl,
   C5_kick_absorbing_while_member.2.2 stC5a "g" "A" "C" "k2" 4 stC5b rfl 2 rfl⟩


/-- Helper: filtering by game id commutes with an update that preserves
ids and fixes the rows carrying the given id. -/
theorem filter_map_id_preserving (l : List Game) (upd : Game → Game) (gid : String)
    (hid : ∀ x, (upd x).id = x.id) (hfix : ∀ x, x.id = gid → upd x = x) :
    ((l.map upd).filter fun x => x.id == gid) = l.filter fun x => x.id == gid := by
  induction l with
  | nil => rfl
  | cons x xs ih =>
      simp only [List.map_cons, List.filter_cons, hid x]
      cases hc : (x.id == gid) with
      | true =>
          have hx : x.id = gid := by simpa using hc
          simp [hfix x hx, ih]
      | false => simp [ih]

/-- Helper: marking every row of the given id completed maps the filtered
rows pointwise. -/
theorem filter_map_id_completing (l : List Game) (gid : String) :
    ((l.map fun x => if x.id == gid then { x with status := "completed" } else x).filter
        fun x => x.id == gid)
      = (l.filter fun x => x.id == gid).map fun x => { x with status := "completed" } := by
  induction l with
  | nil => rfl
  | cons x xs ih =>
      simp only [List.map_cons, List.filter_cons]
      cases hc : (x.id == gid) with
      | true => simpa [hc] using ih
      | false => simpa [hc] using ih

/-- Helper: the last-activity timestamp only depends on the messages of
the game (and the game row itself). -/
theorem lastActivity_congr (st1 st2 : St) (game : Game)
    (h : gameMessages st1 game.id = gameMessages st2 game.id) :
    lastActivity st1 game = lastActivity st2 game := by
  unfold lastActivity
  rw [show sortByTime (gameMessages st1 game.id) = sortByTime (gameMessages st2 game.id)
    from by rw [h]]

/-- Helper: closing a game of a different id leaves the given id's rows
and messages unchanged. -/
theorem sweepStep_other (st : St) (g : Game) (timeout : Int) (mid : String) (now : Nat)
    (gid : String) (hne : g.id ≠ gid) :
    (((sweepStep st g timeout mid now).games.filter fun x => x.id == gid)
        = st.games.filter fun x => x.id == gid)
    ∧ gameMessages (sweepStep st g timeout mid now) gid = gameMessages st gid := by
  constructor
  · simp only [sweepStep, post_message]
    refine filter_map_id_preserving st.games _ gid (fun x => ?_) (fun x hx => ?_)
    · by_cases hxi : (x.id == g.id) = true
      · rw [if_pos hxi]
      · rw [if_neg hxi]
    · have hxg : (x.id == g.id) = false := by
        cases hxe : (x.id == g.id) with
        | true => exact absurd (hx ▸ (by simpa using hxe)) (Ne.symm hne)
        | false => rfl
      simp [hxg]
  · simp only [sweepStep, post_message, gameMessages, List.filter_append]
    have hge : (g.id == gid) = false := by
      cases hxe : (g.id == gid) with
      | true => exact absurd (by simpa using hxe) hne
      | false => rfl
    simp [hge]

/-- Helper: one unfolding step of the sweep loop. -/
theorem sweepGames_cons (timeout : Int) (now : Nat) (f : Nat → String) (g : Game)
    (rest : List Game) (st : St) (c : Nat) :
    sweepGames timeout now f (g :: rest) (st, c)
      = if timeout ≤ (now : Int) - (lastActivity st g : Int) then
          sweepGames timeout now f rest (sweepStep st g timeout (f c) now, c + 1)
        else sweepGames timeout now f rest (st, c) := rfl

/-- Helper: a sweep over games none of which carries the given id leaves
that id's game rows and messages unchanged. -/
theorem sweep_no_touch (timeout : Int) (now : Nat) (f : Nat → String) (gid : String) :
    ∀ (gs : List Game) (st : St) (c : Nat),
      (∀ h ∈ gs, h.id ≠ gid) →
      ((sweepGames timeout now f gs (st, c)).1.games.filter fun x => x.id == gid)
          = (st.games.filter fun x => x.id == gid)
      ∧ gameMessages (sweepGames timeout now f gs (st, c)).1 gid = gameMessages st gid := by
  intro gs
  induction gs with
  | nil => intro st c _; exact ⟨rfl, rfl⟩
  | cons g rest ih =>
      intro st c hh
      have hgid : g.id ≠ gid := hh g (List.mem_cons_self g rest)
      have hrest : ∀ h ∈ rest, h.id ≠ gid := fun h hm => hh h (List.mem_cons_of_mem g hm)
      rw [sweepGames_cons]
      by_cases hcl : timeout ≤ (now : Int) - (lastActivity st g : Int)
      · rw [if_pos hcl]
        have step := ih (sweepStep st g timeout (f c) now) (c + 1) hrest
        have hother := sweepStep_other st g timeout (f c) now gid hgid
        exact ⟨step.1.trans hother.1, step.2.trans hother.2⟩
      · rw [if_neg hcl]
        exact ih st c hrest

/-- Helper: a sweep whose snapshot carries exactly one row of the given
game id — the idle `game` itself — marks every stored row of that id
completed and appends exactly one closure system message to that game,
leaving nothing else of that game changed. -/
theorem sweep_closes (timeout : Int) (now : Nat) (f : Nat → String) (game : Game) :
    ∀ (gs : List Game) (st : St) (c : Nat),
      (gs.filter fun x => x.id == game.id) = [game] →
      timeout ≤ (now : Int) - (lastActivity st game : Int) →
      ((sweepGames timeout now f gs (st, c)).1.games.filter fun x => x.id == game.id)
          = (st.games.filter fun x => x.id == game.id).map
              (fun x => { x with status := "completed" })
      ∧ ∃ k, gameMessages (sweepGames timeout now f gs (st, c)).1 game.id
          = gameMessages st game.id ++ [closureMsg game.id timeout (f k) now] := by
  intro gs
  induction gs with
  | nil => intro st c hfil; exact absurd hfil (by simp)
  | cons g rest ih =>
      intro st c hfil hel
      rw [sweepGames_cons]
      cases hgi : (g.id == game.id) with
      | true =>
          rw [List.filter_cons, hgi] at hfil
          simp only [if_true] at hfil
          have hg : g = game := by
            have := congrArg (fun l => List.head? l) hfil
            simpa using this
          have hrest : (rest.filter fun x => x.id == game.id) = [] := by
            have := congrArg (fun l => List.tail l) hfil
            simpa using this
          have hrest2 : ∀ h ∈ rest, h.id ≠ game.id := by
            intro h hm he
            have hmem : h ∈ rest.filter fun x => x.id == game.id :=
              List.mem_filter.mpr ⟨hm, by simpa using he⟩
            rw [hrest] at hmem
            exact absurd hmem (List.not_mem_nil h)
          have hel2 : timeout ≤ (now : Int) - (lastActivity st g : Int) := hg ▸ hel
          rw [if_pos hel2]
          have step := sweep_no_touch timeout now f game.id rest
            (sweepStep st g timeout (f c) now) (c + 1) hrest2
          refine ⟨step.1.trans ?_, ⟨c, step.2.trans ?_⟩⟩
          · subst hg
            simp only [sweepStep, post_message]
            exact filter_map_id_completing st.games g.id
          · subst hg
            simp only [sweepStep, post_message, gameMessages, List.filter_append]
            simp [closureMsg]
      | false =>
          have hgid : g.id ≠ game.id := by
            intro he
            rw [he] at hgi
            simp at hgi
          rw [List.filter_cons, hgi] at hfil
          simp only [Bool.false_eq_true, if_false] at hfil
          by_cases hcl : timeout ≤ (now : Int) - (lastActivity st g : Int)
          · rw [if_pos hcl]
            have hother := sweepStep_other st g timeout (f c) now game.id hgid
            have step := ih (sweepStep st g timeout (f c) now) (c + 1) hfil
              (by rw [lastActivity_congr _ st game hother.2]; exact hel)
            refine ⟨step.1.trans ?_, ?_⟩
            · rw [hother.1]
            · obtain ⟨k, hk⟩ := step.2
              exact ⟨k, by rw [hk, hother.2]⟩
          · rw [if_neg hcl]
            exact ih st c hfil hel

/-- C6 counterexample: with a non-positive configured timeout the sweeper
does nothing at all.  In the sample store the game has been idle far
longer than a configured timeout of 0 seconds (every session is idle at
least 0 seconds), yet a sweep pass closes nothing, changes nothing, and
appends no message. -/
theorem C6_counterexample :
    close_inactive_games sampleSt 0 1000000 ids0 = (sampleSt, 0)
    ∧ gameG.status = "in_progress"
    ∧ (0 : Int) ≤ (1000000 : Int) - (lastActivity sampleSt gameG : Int) :=
  ⟨rfl, rfl, by decide⟩

/-- C6 amended: provided the configured timeout is positive, a session
with status `open` or `in_progress` whose last activity (most recent
message, or creation when it has none) is at least the timeout in the
past is, after one sweep pass, `completed`, with exactly one new system
message recording the automatic closure appended to it; a second pass
afterward changes nothing further about that session.  (A non-positive
configured timeout disables the sweeper entirely — see the
counterexample.)  The session is identified by its unique id row. -/
theorem C6_sweeper_auto_closure :
    ∀ (st : St) (timeout : Int) (now now2 : Nat) (f f2 : Nat → String) (game : Game),
      0 < timeout →
      (st.games.filter fun x => x.id == game.id) = [game] →
      (game.status = "open" ∨ game.status = "in_progress") →
      timeout ≤ (now : Int) - (lastActivity st game : Int) →
      (((close_inactive_games st timeout now f).1.games.filter fun x => x.id == game.id)
          = [{ game with status := "completed" }])
      ∧ (∃ k, gameMessages (close_inactive_games st timeout now f).1 game.id
          = gameMessages st game.id ++ [closureMsg game.id timeout (f k) now])
      ∧ (((close_inactive_games (close_inactive_games st timeout now f).1
              timeout now2 f2).1.games.filter fun x => x.id == game.id)
          = ((close_inactive_games st timeout now f).1.games.filter
              fun x => x.id == game.id))
      ∧ gameMessages (close_inactive_games (close_inactive_games st timeout now f).1
            timeout now2 f2).1 game.id
          = gameMessages (close_inactive_games st timeout now f).1 game.id := by
  intro st timeout now now2 f f2 game hpos hrow hst hel
  have hnn : ¬ timeout ≤ 0 := by omega
  have hstb : (game.status == "open" || game.status == "in_progress") = true := by
    cases hst with
    | inl h => rw [h]; rfl
    | inr h => rw [h]; rfl
  have hsnap : ((st.games.filter fun g2 =>
      g2.status == "open" || g2.status == "in_progress").filter
        fun x => x.id == game.id) = [game] := by
    rw [List.filter_filter]
    rw [List.filter_congr (fun a _ =>
      Bool.and_comm (a.id == game.id) (a.status == "open" || a.status == "in_progress"))]
    rw [← List.filter_filter, hrow, List.filter_cons, hstb]
    rfl
  simp only [close_inactive_games, if_neg hnn]
  have main := sweep_closes timeout now f game
    (st.games.filter fun g2 => g2.status == "open" || g2.status == "in_progress")
    st 0 hsnap hel
  have hid2 : (((sweepGames timeout now f
      (st.games.filter fun g2 => g2.status == "open" || g2.status == "in_progress")
      (st, 0)).1.games).filter fun x => x.id == game.id)
        = [{ game with status := "completed" }] := by
    rw [main.1, hrow]
    rfl
  have hnt : ∀ h ∈ (sweepGames timeout now f
      (st.games.filter fun g2 => g2.status == "open" || g2.status == "in_progress")
      (st, 0)).1.games.filter
        (fun g2 => g2.status == "open" || g2.status == "in_progress"),
      h.id ≠ game.id := by
    intro h hm heq
    obtain ⟨hmem, hstat⟩ := List.mem_filter.mp hm
    have hidm : h ∈ ((sweepGames timeout now f
        (st.games.filter fun g2 => g2.status == "open" || g2.status == "in_progress")
        (st, 0)).1.games).filter fun x => x.id == game.id :=
      List.mem_filter.mpr ⟨hmem, by simpa using heq⟩
    rw [hid2] at hidm
    have hh : h = { game with status := "completed" } := by simpa using hidm
    rw [hh] at hstat
    simp at hstat
  have notouch := sweep_no_touch timeout now2 f2 game.id
    ((sweepGames timeout now f
        (st.games.filter fun g2 => g2.status == "open" || g2.status == "in_progress")
        (st, 0)).1.games.filter
          fun g2 => g2.status == "open" || g2.status == "in_progress")
    (sweepGames timeout now f
        (st.games.filter fun g2 => g2.status == "open" || g2.status == "in_progress")
        (st, 0)).1
    0 hnt
  exact ⟨hid2, main.2, notouch.1, notouch.2⟩

/-- Witness for C6 at the sample store with a 10-second timeout: the
first pass completes the idle game, the second changes nothing about
it. -/
theorem C6_sweeper_auto_closure_witness :
    (((close_inactive_games sampleSt 10 1000 ids0).1.games.filter
        fun x => x.id == gameG.id) = [{ gameG with status := "completed" }])
    ∧ gameMessages (close_inactive_games (close_inactive_games sampleSt 10 1000 ids0).1
          10 2000 ids0).1 gameG.id
        = gameMessages (close_inactive_games sampleSt 10 1000 ids0).1 gameG.id :=
  ⟨(C6_sweeper_auto_closure sampleSt 10 1000 2000 ids0 ids0 gameG (by decide) rfl
      (Or.inr rfl) (by decide)).1,
   (C6_sweeper_auto_closure sampleSt 10 1000 2000 ids0 ids0 gameG (by decide) rfl
      (Or.inr rfl) (by decide)).2.2.2⟩

/-- Helper: the whisper list computation only reads the roster. -/
theorem whisperMessages_congr (g aid : String) (f : Nat → String) (now : Nat) :
    ∀ (ws : List Jsn) (st1 st2 : St) (k : Nat), st1.players = st2.players →
      whisperMessages st1 g aid ws f k now = whisperMessages st2 g aid ws f k now := by
  intro ws
  induction ws with
  | nil => intro st1 st2 k h; rfl
  | cons w rest ih =>
      intro st1 st2 k h
      have hres : ∀ names, resolve_character_names st1 g names
          = resolve_character_names st2 g names := by
        intro names
        unfold resolve_character_names
        rw [h]
      cases w with
      | objv fs =>
          simp only [whisperMessages, hres]
          by_cases hc : (!((Jsn.lookup fs "content").getD (.strv "")).truthy
              || !((Jsn.lookup fs "to").getD (.arrv [])).truthy) = true
          · rw [if_pos hc, if_pos hc]
            exact ih st1 st2 k h
          · rw [if_neg hc, if_neg hc]
            by_cases he : (resolve_character_names st2 g
                (((Jsn.lookup fs "to").getD (.arrv [])).strList)).isEmpty = true
            · rw [if_pos he, if_pos he]
              exact ih st1 st2 k h
            · rw [if_neg he, if_neg he]
              rw [ih st1 st2 (k + 1) h]
              rfl
      | nullv => simp only [whisperMessages]; exact ih st1 st2 k h
      | boolv b => simp only [whisperMessages]; exact ih st1 st2 k h
      | intv n => simp only [whisperMessages]; exact ih st1 st2 k h
      | strv s => simp only [whisperMessages]; exact ih st1 st2 k h
      | arrv xs => simp only [whisperMessages]; exact ih st1 st2 k h

/-- Helper: the auto-post loop appends exactly the whisper messages of
`whisperMessages`, and touches no other table. -/
theorem postWhispers_appends (g aid : String) (f : Nat → String) (now : Nat) :
    ∀ (ws : List Jsn) (st : St) (k : Nat),
      (postWhispers st g aid ws f k now).messages
          = st.messages ++ whisperMessages st g aid ws f k now
      ∧ (postWhispers st g aid ws f k now).players = st.players
      ∧ (postWhispers st g aid ws f k now).games = st.games
      ∧ (postWhispers st g aid ws f k now).agents = st.agents := by
  intro ws
  induction ws with
  | nil => intro st k; simp [postWhispers, whisperMessages]
  | cons w rest ih =>
      intro st k
      cases w with
      | objv fs =>
          simp only [postWhispers, whisperMessages]
          by_cases hc : (!((Jsn.lookup fs "content").getD (.strv "")).truthy
              || !((Jsn.lookup fs "to").getD (.arrv [])).truthy) = true
          · rw [if_pos hc, if_pos hc]
            exact ih st k
          · rw [if_neg hc, if_neg hc]
            by_cases he : (resolve_character_names st g
                (((Jsn.lookup fs "to").getD (.arrv [])).strList)).isEmpty = true
            · rw [if_pos he, if_pos he]
              exact ih st k
            · rw [if_neg he, if_neg he]
              have step := ih (post_message st g (some aid)
                (((Jsn.lookup fs "content").getD (.strv "")).pyStr) "narrative" none none
                (some (resolve_character_names st g
                  (((Jsn.lookup fs "to").getD (.arrv [])).strList))) (f k) now).1 (k + 1)
              refine ⟨?_, step.2.1, step.2.2.1, step.2.2.2⟩
              rw [step.1]
              rw [whisperMessages_congr g aid f now rest _ st (k + 1) (by simp [post_message])]
              simp [post_message]
      | nullv => simp only [postWhispers, whisperMessages]; exact ih st k
      | boolv b => simp only [postWhispers, whisperMessages]; exact ih st k
      | intv n => simp only [postWhispers, whisperMessages]; exact ih st k
      | strv s => simp only [postWhispers, whisperMessages]; exact ih st k
      | arrv xs => simp only [postWhispers, whisperMessages]; exact ih st k

/-- C7 counterexample: a whisper entry is not posted whenever none of its
target character names resolves in the roster.  The narrator posts a
narrative payload whose single whisper entry (truthy text and target
list) names the unknown character `Ghost`: the main message is stored
with the extracted narration, but no whisper message is appended —
refuting the claim that each entry of the `whispers` list is posted. -/
theorem C7_counterexample :
    post_game_message mod0 sampleSt "g"
        { content := ghostPayload, type := "narrative" } alice (some "tokA") ids0 7
      = .ok (⟨"u0", "g", some "A", "narrative", "x", none, none, none, 7⟩,
          { sampleSt with messages :=
              [msg1, msg2, ⟨"u0", "g", some "A", "narrative", "x", none, none, none, 7⟩] })
    ∧ resolve_character_names sampleSt "g" ["Ghost"] = [] :=
  ⟨rfl, rfl⟩

/-- C7 amended: the DM safety-net transform runs exactly when the caller
membership has the `dm` role and the type is `narrative` or `system`.
When it does not run the submitted text is stored verbatim and nothing
else is appended.  When it runs, the stored main message carries the
extraction output and the whisper entries are appended right after it as
the `whisperMessages` list: one `narrative` whisper per entry that is an
object with truthy `content` and `to` values and whose character names
resolve (via the roster) to at least one agent id — entries failing any
of these conditions are skipped (see the counterexample).  Content
without a `narration` key is passed through unchanged, extraction
replaces the content by the narration text, and a truthy `respond` value
is merged into the metadata under the `respond` key when absent. -/
theorem C7_narration_extraction :
    (∀ st g (req : PostMessageRequest) agent (player : Player) f now,
      (player.role == "dm" && (req.type == "narrative" || req.type == "system")) = false →
      (post_message_commit st g req agent player f now).1
          = (post_message st g (some agent.id) req.content.asString req.type req.metadata
              req.imageUrl req.toAgents (f 0) now).2
      ∧ (post_message_commit st g req agent player f now).2
          = (post_message st g (some agent.id) req.content.asString req.type req.metadata
              req.imageUrl req.toAgents (f 0) now).1)
    ∧ (∀ st g (req : PostMessageRequest) agent (player : Player) f now,
        (player.role == "dm" && (req.type == "narrative" || req.type == "system")) = true →
        (post_message_commit st g req agent player f now).1
            = (post_message st g (some agent.id)
                (maybe_extract_dm_json req.content req.metadata).1 req.type
                (maybe_extract_dm_json req.content req.metadata).2.1
                req.imageUrl req.toAgents (f 0) now).2
        ∧ (post_message_commit st g req agent player f now).2.messages
            = st.messages
              ++ [(post_message st g (some agent.id)
                    (maybe_extract_dm_json req.content req.metadata).1 req.type
                    (maybe_extract_dm_json req.content req.metadata).2.1
                    req.imageUrl req.toAgents (f 0) now).2]
              ++ whisperMessages st g agent.id
                  ((maybe_extract_dm_json req.content req.metadata).2.2.getD []) f 1 now)
    ∧ (∀ (content : PostContent) md,
        (∀ raw fs, content = .json raw (.objv fs) → Jsn.lookup fs "narration" = none) →
        maybe_extract_dm_json content md = (content.asString, md, none))
    ∧ (∀ raw fs nar md, Jsn.lookup fs "narration" = some nar →
        (maybe_extract_dm_json (.json raw (.objv fs)) md).1 = nar.pyStr)
    ∧ (∀ raw fs nar r md, Jsn.lookup fs "narration" = some nar →
        Jsn.lookup fs "respond" = some r → r.truthy = true →
        Jsn.lookup (md.getD []) "respond" = none →
        Jsn.lookup (((maybe_extract_dm_json (.json raw (.objv fs)) md).2.1).getD [])
          "respond" = some r) := by
  refine ⟨?_, ?_, ?_, ?_, ?_⟩
  · intro st g req agent player f now h
    unfold post_message_commit
    rw [h]
    exact ⟨rfl, rfl⟩
  · intro st g req agent player f now h
    unfold post_message_commit
    rw [h]
    simp only [if_true]
    refine ⟨trivial, ?_⟩
    have hap := postWhispers_appends g agent.id f now
      ((maybe_extract_dm_json req.content req.metadata).2.2.getD [])
      (post_message st g (some agent.id)
        (maybe_extract_dm_json req.content req.metadata).1 req.type
        (maybe_extract_dm_json req.content req.metadata).2.1
        req.imageUrl req.toAgents (f 0) now).1 1
    rw [hap.1]
    rw [whisperMessages_congr g agent.id f now _ _ st 1 (by simp [post_message])]
    simp [post_message]
  · intro content md h
    cases content with
    | text s => rfl
    | json raw j =>
        cases j with
        | objv fs =>
            have hnone := h raw fs rfl
            simp only [maybe_extract_dm_json, hnone]
            rfl
        | nullv => rfl
        | boolv b => rfl
        | intv n => rfl
        | strv s => rfl
        | arrv xs => rfl
  · intro raw fs nar md h
    simp only [maybe_extract_dm_json, h]
  · intro raw fs nar r md hn hr htr habs
    have hkey : ∀ (l : List (String × Jsn)),
        Jsn.lookup l "respond" = none →
        Jsn.lookup (l ++ [("respond", r)]) "respond" = some r := by
      intro l
      induction l with
      | nil => intro _; rfl
      | cons kv rest ih2 =>
          intro hl
          obtain ⟨k1, v1⟩ := kv
          rw [List.cons_append]
          by_cases hkk : k1 = "respond"
          · exfalso
            have hlook : Jsn.lookup ((k1, v1) :: rest) "respond" = some v1 := by
              simp [Jsn.lookup, hkk]
            rw [hlook] at hl
            exact absurd hl (by simp)
          · have h1 : Jsn.lookup ((k1, v1) :: rest) "respond"
                = Jsn.lookup rest "respond" := by
              simp [Jsn.lookup, hkk]
            have h2 : Jsn.lookup ((k1, v1) :: (rest ++ [("respond", r)])) "respond"
                = Jsn.lookup (rest ++ [("respond", r)]) "respond" := by
              simp [Jsn.lookup, hkk]
            rw [h1] at hl
            rw [h2]
            exact ih2 hl
    have hres := hkey (md.getD []) habs
    simp only [maybe_extract_dm_json, hn, hr, htr, if_true, setdefault, habs,
      Option.isSome_none, Bool.false_eq_true, if_false]
    rw [if_neg (by simp : ¬((md.getD [] ++ [("respond", r)]).isEmpty = true))]
    simpa using hres

/-- Witness for C7: the narrator posting the spec example payload stores
the extracted narration and appends the resolved whisper right after the
main message; narration extraction yields the inner text. -/
theorem C7_narration_extraction_witness :
    (post_message_commit sampleSt "g" { content := narPayload, type := "narrative" }
        alice playerA ids0 7).2.messages
      = sampleSt.messages
        ++ [(post_message sampleSt "g" (some alice.id)
              (maybe_extract_dm_json narPayload none).1 "narrative"
              (maybe_extract_dm_json narPayload none).2.1 none none (ids0 0) 7).2]
        ++ whisperMessages sampleSt "g" alice.id
            ((maybe_extract_dm_json narPayload none).2.2.getD []) ids0 1 7
    ∧ (maybe_extract_dm_json (.json "r" (.objv [("narration", .strv "The lights die.")]))
        none).1 = (Jsn.strv "The lights die.").pyStr :=
  ⟨(C7_narration_extraction.2.1 sampleSt "g"
      { content := narPayload, type := "narrative" } alice playerA ids0 7 rfl).2,
   C7_narration_extraction.2.2.2.1 "r" [("narration", .strv "The lights die.")]
      (.strv "The lights die.") none rfl⟩

/-- C8 counterexample: being previously kicked does not make every later
join fail.  Carol is kicked from the sample game (her membership row
becomes `kicked`), then leaves — which deletes the row — and her next
join does not fail with 403: it succeeds and creates a fresh `active`
membership, refuting the frozen claim that join fails with a
`PermissionError` whenever the agent was previously kicked from the
session. -/
theorem C8_counterexample :
    kick_player mod0 sampleSt "g" "A" "C" "" "k1" 3 = .ok stC5a
    ∧ ((stC5a.players.find? fun p => p.gameId == "g" && p.agentId == "C").map
        fun p => p.status) = some "kicked"
    ∧ leave_game stC5a "g" carol "k3" 5 = .ok stC8a
    ∧ (stC8a.players.find? fun p => p.gameId == "g" && p.agentId == "C") = none
    ∧ join_game stC8a "g" ⟨none⟩ carol "tokC2" "k4" 6
        = .ok ({ status := "joined", gameId := "g", sessionToken := "tokC2" }, stC8b)
    ∧ ((stC8b.players.find? fun p => p.gameId == "g" && p.agentId == "C").map
        fun p => p.status) = some "active" :=
  ⟨rfl, rfl, rfl, rfl, rfl, rfl⟩

/-- C8 amended: the join checks, in source order.  For an existing
session: a `completed`/`cancelled` session rejects with a 400 state
error; an `in_progress` session whose config forbids mid-session joins
rejects with 400; an agent with an existing membership row is rejected —
403 when that row is `kicked` (only while the row exists: a kicked agent
who has since left has no row and joins afresh, see the counterexample),
409 conflict otherwise; a session whose active non-narrator
(`player`-role) membership count has reached the configured capacity
rejects with 400 ("Game is full"); otherwise the join succeeds, appends
an `active` `player` membership carrying the freshly drawn capability
token (the `uuid4` session-token draw is the explicit `ftok` parameter),
returns that token, and posts a join system message. -/
theorem C8_join_checks :
    (∀ st g req agent ftok mid now game,
      (st.games.find? fun x => x.id == g) = some game →
      (game.status = "completed" ∨ game.status = "cancelled") →
      join_game st g req agent ftok mid now = .error ⟨400, "Game is no longer active"⟩)
    ∧ (∀ st g req agent ftok mid now game,
        (st.games.find? fun x => x.id == g) = some game →
        game.status = "in_progress" → game.config.allowMidSessionJoin = false →
        join_game st g req agent ftok mid now = .error ⟨400, "Mid-session join not allowed"⟩)
    ∧ (∀ st g req agent ftok mid now game row,
        (st.games.find? fun x => x.id == g) = some game →
        (game.status == "completed" || game.status == "cancelled") = false →
        (game.status == "in_progress" && !game.config.allowMidSessionJoin) = false →
        (st.players.find? fun p => p.gameId == g && p.agentId == agent.id) = some row →
        row.status = "kicked" →
        join_game st g req agent ftok mid now = .error ⟨403, "You were kicked from this game"⟩)
    ∧ (∀ st g req agent ftok mid now game row,
        (st.games.find? fun x => x.id == g) = some game →
        (game.status == "completed" || game.status == "cancelled") = false →
        (game.status == "in_progress" && !game.config.allowMidSessionJoin) = false →
        (st.players.find? fun p => p.gameId == g && p.agentId == agent.id) = some row →
        (row.status == "kicked") = false →
        join_game st g req agent ftok mid now = .error ⟨409, "Already in game"⟩)
    ∧ (∀ st g req agent ftok mid now game,
        (st.games.find? fun x => x.id == g) = some game →
        (game.status == "completed" || game.status == "cancelled") = false →
        (game.status == "in_progress" && !game.config.allowMidSessionJoin) = false →
        (st.players.find? fun p => p.gameId == g && p.agentId == agent.id) = none →
        game.config.maxPlayers ≤ (st.players.filter fun p =>
          p.gameId == g && p.role == "player" && p.status == "active").length →
        join_game st g req agent ftok mid now = .error ⟨400, "Game is full"⟩)
    ∧ (∀ st g (req : JoinGameRequest) agent ftok mid now game,
        (st.games.find? fun x => x.id == g) = some game →
        (game.status == "completed" || game.status == "cancelled") = false →
        (game.status == "in_progress" && !game.config.allowMidSessionJoin) = false →
        (st.players.find? fun p => p.gameId == g && p.agentId == agent.id) = none →
        (st.players.filter fun p =>
          p.gameId == g && p.role == "player" && p.status == "active").length
            < game.config.maxPlayers →
        join_game st g req agent ftok mid now
          = .ok ({ status := "joined", gameId := g, sessionToken := ftok },
              (post_message
                { st with players := st.players
                    ++ [{ gameId := g, agentId := agent.id,
                          characterName := req.characterName, role := "player",
                          status := "active", sessionToken := ftok }] }
                g none
                (agent.name ++ " joined"
                  ++ (match req.characterName with
                      | some c => if c == "" then "" else " as " ++ c
                      | none => "")
                  ++ ".")
                "system" none none none mid now).1)) := by
  refine ⟨?_, ?_, ?_, ?_, ?_, ?_⟩
  · intro st g req agent ftok mid now game hg hs
    have hsb : (game.status == "completed" || game.status == "cancelled") = true := by
      cases hs with
      | inl h => rw [h]; rfl
      | inr h => rw [h]; rfl
    unfold join_game
    rw [hg]
    simp only [Bind.bind, Except.bind, hsb, if_true]
  · intro st g req agent ftok mid now game hg hs hm
    have hsb : (game.status == "completed" || game.status == "cancelled") = false := by
      rw [hs]; rfl
    have hmb : (game.status == "in_progress" && !game.config.allowMidSessionJoin) = true := by
      rw [hs, hm]; rfl
    unfold join_game
    rw [hg]
    simp only [Bind.bind, Except.bind, hsb, Bool.false_eq_true, if_false, hmb, if_true]
    rfl
  · intro st g req agent ftok mid now game row hg hs hm hp hk
    have hkb : (row.status == "kicked") = true := by rw [hk]; rfl
    unfold join_game
    rw [hg]
    simp only [Bind.bind, Except.bind, hs, Bool.false_eq_true, if_false, hm, hp, hkb, if_true]
    rfl
  · intro st g req agent ftok mid now game row hg hs hm hp hk
    unfold join_game
    rw [hg]
    simp only [Bind.bind, Except.bind, hs, Bool.false_eq_true, if_false, hm, hp, hk]
    rfl
  · intro st g req agent ftok mid now game hg hs hm hp hfull
    have hc : ((st.players.filter fun p =>
        p.gameId == g && p.role == "player" && p.status == "active").length
          ≥ game.config.maxPlayers) = True := by
      simp [ge_iff_le, hfull]
    unfold join_game
    rw [hg]
    simp only [Bind.bind, Except.bind, hs, Bool.false_eq_true, if_false, hm, hp, hc,
      if_true, ge_iff_le, hfull]
    rfl
  · intro st g req agent ftok mid now game hg hs hm hp hroom
    have hc : ¬ game.config.maxPlayers ≤ (st.players.filter fun p =>
        p.gameId == g && p.role == "player" && p.status == "active").length := by
      omega
    unfold join_game
    rw [hg]
    simp only [Bind.bind, Except.bind, hs, Bool.false_eq_true, if_false, hm, hp,
      ge_iff_le, hc, pure, Except.pure]

/-- Witness for C8: Dave joins the sample game successfully with the
fresh token, and joining the full one-seat game is rejected. -/
theorem C8_join_checks_witness :
    join_game sampleSt "g" ⟨some "Dain"⟩ dave "tokD" "j1" 9
      = .ok ({ status := "joined", gameId := "g", sessionToken := "tokD" },
          (post_message
            { sampleSt with players := sampleSt.players
                ++ [{ gameId := "g", agentId := dave.id, characterName := some "Dain",
                      role := "player", status := "active", sessionToken := "tokD" }] }
            "g" none (dave.name ++ " joined"
              ++ (match (some "Dain" : Option String) with
                  | some c => if c == "" then "" else " as " ++ c
                  | none => "")
              ++ ".")
            "system" none none none "j1" 9).1)
    ∧ join_game smallSt "s" ⟨none⟩ carol "tokC9" "j2" 9
        = .error ⟨400, "Game is full"⟩ :=
  ⟨C8_join_checks.2.2.2.2.2 sampleSt "g" ⟨some "Dain"⟩ dave "tokD" "j1" 9 gameG
      rfl rfl rfl rfl (by decide),
   C8_join_checks.2.2.2.2.1 smallSt "s" ⟨none⟩ carol "tokC9" "j2" 9 gameSmall
      rfl rfl rfl rfl (by decide)⟩

/-- C9: with moderation enabled the image check is a pure predicate on
the URL string (no network access is modelled or needed): every URL
without the secure `https://` scheme is rejected; every URL whose host is
a blocked local hostname or an IP literal that is loopback, private,
link-local or reserved is rejected; and the check passes — returning the
URL unchanged — exactly when the scheme is secure and the host is not
flagged. -/
theorem C9_image_gate (cfg : ModCfg) (url : String) (hen : cfg.enabled = true) :
    (secure_scheme url = false →
      moderate_image cfg url = some "Image URLs must use HTTPS")
    ∧ (secure_scheme url = true → host_flagged url = true →
        (moderate_image cfg url).isSome = true)
    ∧ (moderate_image cfg url = none ↔
        (secure_scheme url = true ∧ host_flagged url = false)) := by
  have hstep : moderate_image cfg url =
      if !(startsWithStr url "https://") then some "Image URLs must use HTTPS"
      else if blocked_hosts.contains (url_hostname url) then
        some "Image URLs cannot reference local addresses"
      else
        match ip_address (url_hostname url) with
        | some addr =>
            if addr.isLoopback then some "Image URLs cannot reference local addresses"
            else if addr.isPrivate || addr.isLinkLocal || addr.isReserved then
              some "Image URLs cannot reference private network addresses"
            else none
        | none => none := by
    unfold moderate_image
    rw [hen]
    rfl
  rw [hstep]
  cases hsw : startsWithStr url "https://" with
  | false => simp [secure_scheme, hsw]
  | true =>
      cases hbl : blocked_hosts.contains (url_hostname url) with
      | true =>
          have hmem : url_hostname url ∈ blocked_hosts := by simpa using hbl
          simp [secure_scheme, host_flagged, hsw, hmem]
      | false =>
          have hmem : url_hostname url ∉ blocked_hosts := by simpa using hbl
          cases hip : ip_address (url_hostname url) with
          | none => simp [secure_scheme, host_flagged, hsw, hmem, hip]
          | some addr =>
              cases hl : addr.isLoopback with
              | true => simp [secure_scheme, host_flagged, hsw, hmem, hip, hl]
              | false =>
                  cases hp2 : addr.isPrivate with
                  | true => simp [secure_scheme, host_flagged, hsw, hmem, hip, hl, hp2]
                  | false =>
                      cases hp3 : addr.isLinkLocal with
                      | true =>
                          simp [secure_scheme, host_flagged, hsw, hmem, hip, hl, hp2, hp3]
                      | false =>
                          cases hp4 : addr.isReserved with
                          | true =>
                              simp [secure_scheme, host_flagged, hsw, hmem, hip, hl,
                                hp2, hp3, hp4]
                          | false =>
                              simp [secure_scheme, host_flagged, hsw, hmem, hip, hl,
                                hp2, hp3, hp4]

/-- Witness for C9: a plain-HTTP URL, a private-network IP literal URL
and a local-hostname URL are rejected; a public HTTPS URL passes. -/
theorem C9_image_gate_witness :
    moderate_image mod0 "http://example.com/a.png" = some "Image URLs must use HTTPS"
    ∧ (moderate_image mod0 "https://10.0.0.1/a.png").isSome = true
    ∧ (moderate_image mod0 "https://localhost/a.png").isSome = true
    ∧ moderate_image mod0 "https://example.com/a.png" = none :=
  ⟨(C9_image_gate mod0 "http://example.com/a.png" rfl).1 rfl,
   (C9_image_gate mod0 "https://10.0.0.1/a.png" rfl).2.1 rfl (by decide),
   (C9_image_gate mod0 "https://localhost/a.png" rfl).2.1 rfl (by decide),
   (C9_image_gate mod0 "https://example.com/a.png" rfl).2.2.mpr ⟨rfl, by decide⟩⟩

/-- C10: the moderation gate is consulted only on the outer submitted
content string and the image reference.  A post succeeds whenever the
pre-checks (which moderate only `req.content` as submitted, i.e. the raw
text) and the staleness check pass, and the auto-posted whispers are then
appended with the parsed entry text verbatim — `whisperMessages` does not
take the moderation configuration at all, so a whisper text matching the
denylist is still appended.  (The raw text is itself moderated, so the
denylisted word reaches the channel when the payload spells it with JSON
escape sequences; the parse-outcome model represents such payloads as a
raw text that passes the gate paired with a parsed value that carries the
blocked word.) -/
theorem C10_whisper_bypasses_gate :
    (∀ cfg st g (req : PostMessageRequest) agent tok f now gp,
      post_message_checks cfg st g req agent tok = .ok gp →
      staleness_check st g req.after = .ok () →
      post_game_message cfg st g req agent tok f now
        = .ok (post_message_commit st g req agent gp.2 f now))
    ∧ (∀ st g aid (fs : List (String × Jsn)) text names ids rest f k now,
        Jsn.lookup fs "content" = some (.strv text) →
        text ≠ "" →
        Jsn.lookup fs "to" = some names →
        names.truthy = true →
        resolve_character_names st g names.strList = ids →
        ids ≠ [] →
        whisperMessages st g aid (.objv fs :: rest) f k now
          = ⟨f k, g, some aid, "narrative", text, none,
              some ids, none, now⟩
            :: whisperMessages st g aid rest f (k + 1) now) := by
  constructor
  · intro cfg st g req agent tok f now gp hchecks hstale
    unfold post_game_message
    rw [hchecks, hstale]
    rfl
  · intro st g aid fs text names ids rest f k now hc hne hto htr hres hne2
    have htt : (Jsn.strv text).truthy = true := by
      simp only [Jsn.truthy, Bool.not_eq_eq_eq_not, Bool.not_false]
      cases hte : text.isEmpty with
      | false => rfl
      | true => exact absurd ((String.isEmpty_iff text).mp hte) hne
    simp only [whisperMessages, hc, hto, Option.getD_some, htt, htr, Bool.not_true,
      Bool.or_self, Bool.false_eq_true, if_false, hres]
    have hie : ids.isEmpty = false := by
      cases ids with
      | nil => exact absurd rfl hne2
      | cons a as => rfl
    rw [hie]
    simp only [Bool.false_eq_true, if_false]
    cases ids with
    | nil => exact absurd rfl hne2
    | cons a as => rfl

/-- Witness for C10: the whisper text is denylisted, the raw payload (its
escaped spelling) passes the gate, the narrator post succeeds, and the
whisper carrying the blocked word verbatim is appended. -/
theorem C10_whisper_bypasses_gate_witness :
    moderate_content_blocked mod0 "the blight comes" = true
    ∧ moderate_content_blocked mod0 blightPayload.asString = false
    ∧ post_game_message mod0 sampleSt "g"
        { content := blightPayload, type := "narrative" } alice (some "tokA") ids0 7
      = .ok (post_message_commit sampleSt "g"
          { content := blightPayload, type := "narrative" } alice playerA ids0 7)
    ∧ whisperMessages sampleSt "g" "A"
        [.objv [("to", .arrv [.strv "Rook"]), ("content", .strv "the blight comes")]] ids0 1 7
      = [⟨ids0 1, "g", some "A", "narrative", "the blight comes", none, some ["B"],
          none, 7⟩] :=
  ⟨by decide, by decide,
   C10_whisper_bypasses_gate.1 mod0 sampleSt "g"
     { content := blightPayload, type := "narrative" } alice (some "tokA") ids0 7
     (gameG, playerA) rfl rfl,
   (C10_whisper_bypasses_gate.2 sampleSt "g" "A"
     [("to", .arrv [.strv "Rook"]), ("content", .strv "the blight comes")]
     "the blight comes" (.arrv [.strv "Rook"]) ["B"] [] ids0 1 7 rfl (by decide) rfl rfl
     rfl (by decide)).trans rfl⟩
